import Mathlib

/-!
# Verification of the VPlan_FR substitution-message parsing engine

Shallow embedding of `src/backend/lesson_info.py`: the bracket-aware segmenter,
the grammar cascade, the message model with its grouping and rendering
behaviour, the fuzzy entity linker, teacher resolution and inference, and the
serialization layer.  Python strings are modelled as `List Char` (or `String`
where only the value matters), Python `set` as `Finset`, Python `dict` as
insertion-ordered association lists, `None` as `Option.none`, and Python
regexes as backtracking parser combinators whose alternative order mirrors the
backtracking order of `re`.

Helper modules of the repository that are not part of the analysed sources
(`vplan_utils`, `blocks`, `typography_fixer`, the teacher directory) are either
modelled from the spec (marked as such) or taken as parameters, as §6 of the
spec treats them as external collaborators.
-/

namespace VPlanFR

/-- Python `datetime.date`: a calendar date. -/
structure Date where
  year : Nat
  month : Nat
  day : Nat
deriving DecidableEq, Repr

/-- Python `date` comparison is lexicographic on (year, month, day). -/
def Date.lt (a b : Date) : Bool :=
  a.year < b.year ∨ (a.year = b.year ∧ (a.month < b.month ∨ (a.month = b.month ∧ a.day < b.day)))

/-- The `plan_type` axis: `typing.Literal["forms", "teachers", "rooms"]`. -/
inductive PlanType where
  | forms
  | teachers
  | rooms
deriving DecidableEq, Repr

/-! ## 4.1 Segmenter: `split_parens_aware` (`lesson_info.py` lines 595-619)

`parens` (a Python `dict[str, str]`) is modelled as an association list of
`Char` pairs; `sep` is a single character (the source asserts `len(sep) == 1`).
-/

/-- The loop body of `split_parens_aware` computing `sep_indexes`: walks the
string keeping the `parens_stack` and records the absolute index of every
separator occurrence seen with an empty stack.  `i` is the index of the first
character of `cs` in the full string. -/
def sepIndexesAux (parens : List (Char × Char)) (sep : Char) :
    List Char → List Char → Nat → List Nat
  | _stack, [], _i => []
  | stack, c :: cs, i =>
    match parens.lookup c with
    | some closing => sepIndexesAux parens sep (closing :: stack) cs (i + 1)
    | none =>
      match stack with
      | top :: rest =>
        if c = top then sepIndexesAux parens sep rest cs (i + 1)
        else if c = sep ∧ stack = [] then i :: sepIndexesAux parens sep stack cs (i + 1)
        else sepIndexesAux parens sep stack cs (i + 1)
      | [] =>
        if c = sep then i :: sepIndexesAux parens sep stack cs (i + 1)
        else sepIndexesAux parens sep stack cs (i + 1)

/-- `sep_indexes` of `split_parens_aware`. -/
def sepIndexes (parens : List (Char × Char)) (sep : Char) (s : List Char) : List Nat :=
  sepIndexesAux parens sep [] s 0

/-- The output-building loop of `split_parens_aware`: slices the string at the
recorded separator indices (`out.append(string[start_index:sep_index])`,
`start_index = sep_index + 1`, final `out.append(string[start_index:])`). -/
def piecesFrom (s : List Char) : Nat → List Nat → List (List Char)
  | start, [] => [s.drop start]
  | start, i :: rest => (s.drop start).take (i - start) :: piecesFrom s (i + 1) rest

/-- `split_parens_aware(string, sep, parens)` from the source. -/
def split_parens_aware (s : List Char) (sep : Char) (parens : List (Char × Char)) :
    List (List Char) :=
  piecesFrom s 0 (sepIndexes parens sep s)

/-- The default bracket mapping `{"(": ")"}`. -/
def defaultParens : List (Char × Char) := [('(', ')')]

/-- The bracket stack after scanning a prefix of the input, starting from a
given stack (one step of the scanning loop of `split_parens_aware`). -/
def stackAfter (parens : List (Char × Char)) : List Char → List Char → List Char
  | stack, [] => stack
  | stack, c :: cs =>
    match parens.lookup c with
    | some closing => stackAfter parens (closing :: stack) cs
    | none =>
      match stack with
      | top :: rest =>
        if c = top then stackAfter parens rest cs
        else stackAfter parens stack cs
      | [] => stackAfter parens stack cs

/-- The bracket stack of `split_parens_aware` just before position `n`. -/
def stackAt (parens : List (Char × Char)) (s : List Char) (n : Nat) : List Char :=
  stackAfter parens [] (s.take n)

/-- Rejoining the fragments with the separator reinserted
("concatenating all returned substrings with the separator reinserted"). -/
def joinSep (sep : Char) : List (List Char) → List Char
  | [] => []
  | [x] => x
  | x :: y :: rest => x ++ sep :: joinSep sep (y :: rest)

/-! ## LinkedTextSegment model (`lesson_info.py` lines 544-565) -/

/-- `LessonInfoTextSegmentLink`: the semantic link on a rendered segment. -/
structure LessonInfoTextSegmentLink where
  type : PlanType
  value : List String
  date : Option Date
  periods : Option (List Nat)
deriving DecidableEq, Repr

/-- `LessonInfoTextSegment`: a piece of display text with an optional link. -/
structure LessonInfoTextSegment where
  text : String
  link : Option LessonInfoTextSegmentLink := none
deriving DecidableEq, Repr

/-- Concatenation of the `text` fields of a segment list, in order. -/
def segsText (segs : List LessonInfoTextSegment) : String :=
  String.join (segs.map (fun seg => seg.text))

/-! ## 4.4 Fuzzy Linker (`lesson_info.py` lines 842-964)

A compiled pattern is modelled as a function from the full text and an
absolute start position to the absolute end position of a match anchored
there (`pattern.match(text, i)`; its `.end()` is an absolute index into
`text`), `none` when no match; the validator receives the span `(i, end)`.
-/

/-- The inner `for match in matches` loop of `add_fuzzy_with_validator`: the
first pattern that matches at `i` and whose match the validator accepts wins
(`continue` skips both a non-match and a rejected match). -/
def tryPatternsAt (text : List Char)
    (validator : Nat → Nat → Option (List LessonInfoTextSegment)) (i : Nat) :
    List (List Char → Nat → Option Nat) → Option (Nat × List LessonInfoTextSegment)
  | [] => none
  | p :: ps =>
    match p text i with
    | none => tryPatternsAt text validator i ps
    | some e =>
      match validator i e with
      | none => tryPatternsAt text validator i ps
      | some segs => some (e, segs)

/-- The `while i < len(text)` loop of `add_fuzzy_with_validator`, totalized
with fuel (one unit per iteration; every iteration of the source loop either
terminates it or increases `i`, except a zero-width accepted match at `i = 0`,
which loops forever in Python and here only exhausts the fuel — no pattern
used in the source matches the empty string).  Faithfully to the source, an
accepted match advances the cursor by `i += match.end()` — that is, to
`i + e` where `e` is the absolute match end — and otherwise the current
character is emitted as an unlinked one-character segment. -/
def add_fuzzy_aux (text : List Char) (patterns : List (List Char → Nat → Option Nat))
    (validator : Nat → Nat → Option (List LessonInfoTextSegment)) :
    Nat → Nat → List LessonInfoTextSegment
  | 0, _ => []
  | fuel + 1, i =>
    if i < text.length then
      match tryPatternsAt text validator i patterns with
      | some (e, segs) => segs ++ add_fuzzy_aux text patterns validator fuel (i + e)
      | none =>
        ⟨String.mk [text.getD i ' '], none⟩ :: add_fuzzy_aux text patterns validator fuel (i + 1)
    else []

/-- `add_fuzzy_with_validator(text, patterns, validator)` from the source. -/
def add_fuzzy_with_validator (text : List Char)
    (patterns : List (List Char → Nat → Option Nat))
    (validator : Nat → Nat → Option (List LessonInfoTextSegment)) :
    List LessonInfoTextSegment :=
  add_fuzzy_aux text patterns validator (text.length + 1) 0

/-- Python `\s` on the characters occurring in plan texts. -/
def isSpaceCh (c : Char) : Bool :=
  c = ' ' || c = '\t' || c = '\n' || c = '\x0b' || c = '\x0c' || c = '\r'

/-- The compiled room pattern `(?<!\S){room}(?=\s|[)!?:])` built by
`add_fuzzy_room_links`: the room literal at `i`, not preceded by a
non-whitespace character (vacuously true at `i = 0`), followed by a
whitespace or one of `)!?:` (the lookahead needs a following character; the
lookarounds consume nothing, so the match end is `i + |room|`). -/
def roomPatternOk (room : List Char) (text : List Char) (i : Nat) : Bool :=
  decide ((text.drop i).take room.length = room) &&
    (i == 0 || isSpaceCh (text.getD (i - 1) ' ')) &&
    (match (text.drop (i + room.length)).head? with
     | none => false
     | some c => isSpaceCh c || c == ')' || c == '!' || c == '?' || c == ':')

/-- The room pattern as a fuzzy-pass pattern. -/
def roomPatternMatch (room : List Char) (text : List Char) (i : Nat) : Option Nat :=
  if roomPatternOk room text i then some (i + room.length) else none

/-- `add_fuzzy_room_links(text, _, rooms, date)` (lines 954-964): one pattern
per known room, validator always accepting with a rooms-link on the matched
text.  The Python `rooms` set is modelled as a list fixing an iteration order
(the claims only use singleton sets, where the order is immaterial). -/
def add_fuzzy_room_links (text : List Char) (rooms : List (List Char)) (date : Date) :
    List LessonInfoTextSegment :=
  add_fuzzy_with_validator text
    (rooms.map (fun r => fun t i => roomPatternMatch r t i))
    (fun i e =>
      some [⟨String.mk ((text.drop i).take (e - i)),
        some ⟨PlanType.rooms, [String.mk ((text.drop i).take (e - i))], some date, none⟩⟩])

/-! ## Message model (`lesson_info.py` lines 143-433)

The inheritance-based `ParsedLessonInfoMessage` hierarchy becomes a closed
tagged-variant type.  `before`/`after`/`original_messages` — class attributes
set by `_parse_message` on every instance — live on the `ParsedInfoMsg`
wrapper.  Python `set[str]` becomes `Finset String`; where the source
enumerates a set (`', '.join`, `next(iter(...))`) the model enumerates it in
sorted order — Python's set iteration order is unspecified, and every claim
evaluates such enumerations only on singleton sets, where any order agrees.
-/

/-- Fields of the `MovedFrom` dataclass. -/
structure MovedFromFields where
  plan_type : PlanType
  plan_value : Finset String
  periods : Finset Nat
  date : Option Date
deriving DecidableEq

/-- Shared fields of `AbstractParsedLessonInfoMessageWithCourseInfo`:
`_teachers` is the unresolved raw teacher-reference set (dataclass default
`None`), kept distinct from the resolved `other_info_value`. -/
structure CourseFields where
  course : String
  plan_type : PlanType
  plan_value : Finset String
  other_info_value : Option (Finset String)
  _teachers : Option (Finset String) := none
deriving DecidableEq

/-- Fields of the `MovedTo` dataclass. -/
structure MovedToFields extends CourseFields where
  date : Option Date
  periods : Finset Nat
deriving DecidableEq

/-- The closed set of message variants (`ParsedLessonInfoMessage` subclasses). -/
inductive ParsedMsgCore where
  | movedFrom (f : MovedFromFields)
  | movedTo (f : MovedToFields)
  | insteadOfCourse (f : CourseFields) (periods : Finset Nat)
  | cancelled (f : CourseFields) (periods : Finset Nat)
  | doIndependently
  | tasksInLernsax
  | tasksWereGiven
  | doAtLocation (location : String)
  | individualRevision (location : Option String)
  | exam (last_name : String)
  | wholeForm (form : String) (periods : Finset Nat)
  | failedToParse
deriving DecidableEq

/-- A parsed message with the `before`/`after`/`original_messages` attributes
that `_parse_message` sets on every `ParsedLessonInfoMessage` instance. -/
structure ParsedInfoMsg where
  core : ParsedMsgCore
  before : String := ""
  after : String := ""
  original_messages : List String := []
deriving DecidableEq

/-- `get_other_info_type_of_plan_type`:
`{"forms": "teachers", "teachers": "forms", "rooms": "forms"}`. -/
def get_other_info_type_of_plan_type : PlanType → PlanType
  | .forms => .teachers
  | .teachers => .forms
  | .rooms => .forms

/-- Python truthiness of an optional set: `None` and the empty set are falsy. -/
def optSetTruthy : Option (Finset String) → Bool
  | none => false
  | some t => decide (t ≠ ∅)

/-- `original_other_info_value`: the raw `_teachers` set if truthy, else the
resolved `other_info_value`. -/
def CourseFields.original_other_info_value (f : CourseFields) : Option (Finset String) :=
  if optSetTruthy f._teachers then f._teachers else f.other_info_value

/-- `MovedFrom.is_groupable` (lines 205-211): same `before`, `after`, `date`
and `plan_type`; the wrappers carry `before`/`after`, the field records the
rest. -/
def MovedFrom.is_groupable (a : ParsedInfoMsg) (fa : MovedFromFields)
    (b : ParsedInfoMsg) (fb : MovedFromFields) : Bool :=
  decide (a.before = b.before) && decide (a.after = b.after) &&
    decide (fa.date = fb.date) && decide (fa.plan_type = fb.plan_type)

/-- `MovedTo.is_groupable` (lines 316-322): same `course`,
`original_other_info_value`, `date` and `plan_type` (it does not read
`before`/`after`). -/
def MovedTo.is_groupable (fa fb : MovedToFields) : Bool :=
  decide (fa.course = fb.course) &&
    decide (fa.toCourseFields.original_other_info_value
      = fb.toCourseFields.original_other_info_value) &&
    decide (fa.date = fb.date) && decide (fa.plan_type = fb.plan_type)

/-- The `is_groupable` dispatch over instances: only `MovedFrom` and `MovedTo`
define the method; `none` models its absence on every other variant
(`AttributeError` in Python) and on cross-variant calls, which are outside the
source's type annotations. -/
def ParsedInfoMsg.is_groupable (a b : ParsedInfoMsg) : Option Bool :=
  match a.core, b.core with
  | .movedFrom fa, .movedFrom fb => some (MovedFrom.is_groupable a fa b fb)
  | .movedTo fa, .movedTo fb => some (MovedTo.is_groupable fa fb)
  | _, _ => none

/-! ## Renderer (`lesson_info.py` lines 153-412)

External collaborators of the renderer (spec §6): the block configuration's
period labelling, Python's `date.weekday()`, `vplan_utils.forms_to_str` and
the typography normalizer `fix_typography` are all outside the analysed
sources; rendering is parameterized over them. -/
structure RenderEnv where
  get_label_of_periods : Finset Nat → String
  weekday : Date → Fin 7
  forms_to_str : Option (Finset String) → String
  fix_typography : String → String

/-- `de_weekday_to_str` (lines 131-140): indexes the weekday-abbreviation
list. -/
def de_weekday_to_str (w : Fin 7) : String :=
  (["Mo", "Di", "Mi", "Do", "Fr", "Sa", "So"]).getD w.val ""

/-- Two-digit zero padding, as in `strftime("%d"/"%m")` and `isoformat`. -/
def pad2 (n : Nat) : String :=
  if n < 10 then "0" ++ toString n else toString n

/-- Four-digit zero padding, as in `strftime("%Y")` and `isoformat`. -/
def pad4 (n : Nat) : String :=
  if n < 10 then "000" ++ toString n
  else if n < 100 then "00" ++ toString n
  else if n < 1000 then "0" ++ toString n
  else toString n

/-- `self.date.strftime('%d.%m.%Y')`. -/
def strftimeDMY (d : Date) : String :=
  pad2 d.day ++ "." ++ pad2 d.month ++ "." ++ pad4 d.year

/-- `sorted(...)` of a Python `set[str]`. -/
def sortedStrings (s : Finset String) : List String :=
  s.sort (· ≤ ·)

/-- `sorted(...)` of a Python `set[int]`. -/
def sortedNats (s : Finset Nat) : List Nat :=
  s.sort (· ≤ ·)

/-- `', '.join(...)` over an optional set, enumerated in sorted order (see
the note on set iteration above; joining `None` would raise in Python and is
never relied upon). -/
def joinSet (o : Option (Finset String)) : String :=
  String.intercalate ", " (sortedStrings (o.getD ∅))

/-- `AbstractParsedLessonInfoMessageWithCourseInfo._course_text_segments`
(lines 244-261): the course code followed by the other-entity text, linked
only when `other_info_value` is truthy. -/
def _course_text_segments (f : CourseFields) (env : RenderEnv) (date : Date)
    (periods : Option (List Nat)) : List LessonInfoTextSegment :=
  let other_info_value_text :=
    if get_other_info_type_of_plan_type f.plan_type = PlanType.forms then
      env.forms_to_str f.other_info_value
    else
      joinSet f.original_other_info_value
  [⟨f.course ++ " ", none⟩,
   ⟨other_info_value_text,
     if optSetTruthy f.other_info_value then
       some ⟨get_other_info_type_of_plan_type f.plan_type,
         sortedStrings (f.other_info_value.getD ∅), some date, periods⟩
     else none⟩]

/-- `MovedFrom._to_text_segments` (lines 175-203). -/
def MovedFrom_to_text_segments (f : MovedFromFields) (lesson_date : Date)
    (env : RenderEnv) : List LessonInfoTextSegment :=
  match f.date with
  | none =>
    [⟨"verlegt von ", none⟩,
     ⟨env.get_label_of_periods f.periods,
       some ⟨f.plan_type, sortedStrings f.plan_value, some lesson_date,
         some (sortedNats f.periods)⟩⟩]
  | some d =>
    [⟨"statt ", none⟩,
     ⟨de_weekday_to_str (env.weekday d) ++ " (" ++ strftimeDMY d ++ ") "
         ++ env.get_label_of_periods f.periods,
       some ⟨f.plan_type, sortedStrings f.plan_value, some d,
         some (sortedNats f.periods)⟩⟩]

/-- `MovedTo._to_text_segments` (lines 269-314): same-day moves render
`" verlegt nach "` with the link dated at the lesson; past moves
(`date < lesson_date`) render `" gehalten am "`, future or same-date moves
`" verlegt nach "`, both dated at the message's own date. -/
def MovedTo_to_text_segments (f : MovedToFields) (lesson_date : Date)
    (env : RenderEnv) : List LessonInfoTextSegment :=
  match f.date with
  | none =>
    _course_text_segments f.toCourseFields env lesson_date none ++
      [⟨" verlegt nach ", none⟩,
       ⟨env.get_label_of_periods f.periods,
         some ⟨f.plan_type, sortedStrings f.plan_value, some lesson_date,
           some (sortedNats f.periods)⟩⟩]
  | some d =>
    if Date.lt d lesson_date then
      _course_text_segments f.toCourseFields env d (some (sortedNats f.periods)) ++
        [⟨" gehalten am ", none⟩,
         ⟨de_weekday_to_str (env.weekday d) ++ " (" ++ strftimeDMY d ++ ") "
             ++ env.get_label_of_periods f.periods,
           some ⟨f.plan_type, sortedStrings f.plan_value, some d,
             some (sortedNats f.periods)⟩⟩]
    else
      _course_text_segments f.toCourseFields env d (some (sortedNats f.periods)) ++
        [⟨" verlegt nach ", none⟩,
         ⟨de_weekday_to_str (env.weekday d) ++ " (" ++ strftimeDMY d ++ ") "
             ++ env.get_label_of_periods f.periods,
           some ⟨f.plan_type, sortedStrings f.plan_value, some d,
             some (sortedNats f.periods)⟩⟩]

/-- The `_to_text_segments` dispatch (overridden by six variants, base-class
default `"\n".join(original_messages)` for the rest; `FailedToParse` renders
the typography-fixed `", "`-join of its `original_messages`). -/
def ParsedInfoMsg.inner_text_segments (m : ParsedInfoMsg) (lesson_date : Date)
    (env : RenderEnv) : List LessonInfoTextSegment :=
  match m.core with
  | .movedFrom f => MovedFrom_to_text_segments f lesson_date env
  | .movedTo f => MovedTo_to_text_segments f lesson_date env
  | .insteadOfCourse f periods =>
    ⟨"für ", none⟩ :: _course_text_segments f env lesson_date (some (sortedNats periods))
  | .cancelled f periods =>
    _course_text_segments f env lesson_date (some (sortedNats periods)) ++
      [⟨" fällt aus", none⟩]
  | .wholeForm form periods =>
    [⟨"gesamte ", none⟩,
     ⟨"Klasse " ++ form,
       some ⟨PlanType.forms, [form], some lesson_date, some (sortedNats periods)⟩⟩]
  | .failedToParse =>
    [⟨env.fix_typography (String.intercalate ", " m.original_messages), none⟩]
  | _ => [⟨String.intercalate "\x0a" m.original_messages, none⟩]

/-- `ParsedLessonInfoMessage.to_text_segments` (lines 153-159): wraps the
variant's own segments with unlinked `before`/`after` segments when those are
truthy (non-empty). -/
def ParsedInfoMsg.to_text_segments (m : ParsedInfoMsg) (lesson_date : Date)
    (env : RenderEnv) : List LessonInfoTextSegment :=
  (if m.before ≠ "" then [⟨m.before, none⟩] else []) ++
    m.inner_text_segments lesson_date env ++
    (if m.after ≠ "" then [⟨m.after, none⟩] else [])

/-! ## Paragraph/message containers and canonical sorting (lines 568-708) -/

/-- `LessonInfoMessage`: one parsed unit plus its index in the paragraph. -/
structure LessonInfoMessage where
  parsed : ParsedInfoMsg
  index : Nat
deriving DecidableEq

/-- `LessonInfoParagraph`: messages plus the paragraph's original position. -/
structure LessonInfoParagraph where
  messages : List LessonInfoMessage
  index : Nat
deriving DecidableEq

/-- `ParsedLessonInfo`: the full parse of one lesson's info field. -/
structure ParsedLessonInfo where
  paragraphs : List LessonInfoParagraph
deriving DecidableEq

/-- Lexicographic comparison of lists from elementwise comparison — Python's
`list.__lt__`. -/
def listLtB {α : Type} (ltA : α → α → Bool) : List α → List α → Bool
  | [], ys => !ys.isEmpty
  | _ :: _, [] => false
  | x :: xs, y :: ys => if ltA x y then true else if ltA y x then false else listLtB ltA xs ys

/-- Python string `<` (code-point lexicographic). -/
def strLtB (a b : String) : Bool :=
  listLtB (fun c d => decide (c < d)) a.toList b.toList

/-- Insert into a sorted list keeping earlier-inserted equals first — the
stability contract of Python's `sorted`. -/
def pyInsert {α : Type} (lt : α → α → Bool) (x : α) : List α → List α
  | [] => [x]
  | y :: ys => if lt y x then y :: pyInsert lt x ys else x :: y :: ys

/-- Stable sort with a boolean `<`, modelling Python's `sorted`. -/
def pySorted {α : Type} (lt : α → α → Bool) : List α → List α
  | [] => []
  | x :: xs => pyInsert lt x (pySorted lt xs)

/-- The canonical message key: `message.parsed.original_messages`. -/
def msgKey (m : LessonInfoMessage) : List String :=
  m.parsed.original_messages

/-- The canonical paragraph key: `[m.parsed.original_messages for m in p.messages]`. -/
def parKey (p : LessonInfoParagraph) : List (List String) :=
  p.messages.map msgKey

/-- `ParsedLessonInfo.sorted_canonical` (lines 685-690): messages of each
paragraph sorted by their `original_messages`, then paragraphs sorted by the
list of their messages' `original_messages`. -/
def ParsedLessonInfo.sorted_canonical (info : ParsedLessonInfo) : ParsedLessonInfo :=
  let paragraphs := info.paragraphs.map (fun p =>
    LessonInfoParagraph.mk (pySorted (fun a b => listLtB strLtB (msgKey a) (msgKey b)) p.messages)
      p.index)
  ⟨pySorted (fun a b => listLtB (listLtB strLtB) (parKey a) (parKey b)) paragraphs⟩

/-- `ParsedLessonInfo.lesson_group_sort_key` (lines 704-708). -/
def ParsedLessonInfo.lesson_group_sort_key (info : ParsedLessonInfo) :
    List (List (List String)) :=
  info.sorted_canonical.paragraphs.map parKey

/-! ## Teacher resolution (lines 692-702)

The teacher directory (`backend.teacher.Teachers.query_plan_teacher`, outside
the analysed sources; spec §6) is a parameter: `query raw = none` models the
`LookupError` raised when no entry matches at the reference date, `some short`
a successful lookup of the canonical abbreviation `plan_short`. -/

/-- `hasattr(message.parsed, "_teachers")`: true exactly for the dataclasses
deriving from `AbstractParsedLessonInfoMessageWithCourseInfo`. -/
def ParsedMsgCore.hasTeachersAttr : ParsedMsgCore → Bool
  | .movedTo _ => true
  | .insteadOfCourse _ _ => true
  | .cancelled _ _ => true
  | _ => false

/-- The `_teachers` attribute of a course-bearing variant. -/
def ParsedMsgCore.teachersAttr : ParsedMsgCore → Option (Finset String)
  | .movedTo f => f._teachers
  | .insteadOfCourse f _ => f._teachers
  | .cancelled f _ => f._teachers
  | _ => none

/-- Assignment `message.parsed.other_info_value = v` on a course-bearing
variant (identity elsewhere). -/
def ParsedMsgCore.setOtherInfo : ParsedMsgCore → Option (Finset String) → ParsedMsgCore
  | .movedTo f, v => .movedTo { f with other_info_value := v }
  | .insteadOfCourse f p, v => .insteadOfCourse { f with other_info_value := v } p
  | .cancelled f p, v => .cancelled { f with other_info_value := v } p
  | c, _ => c

/-- The set comprehension
`{teachers.query_plan_teacher(t, date).plan_short for t in _teachers}` with
its surrounding `try/except LookupError`: the resolved set when every lookup
succeeds, `None` as soon as one raises. -/
def resolveTeacherSet (query : String → Option String) (ts : Finset String) :
    Option (Finset String) :=
  if ∀ t ∈ ts, (query t).isSome then some (ts.image (fun t => (query t).getD ""))
  else none

/-- Python errors that can escape `resolve_teachers`: iterating `None`
(`_teachers` unset on a course-bearing message) raises `TypeError`, which the
source does not catch. -/
inductive PyError where
  | typeError
deriving DecidableEq, Repr

/-- The per-message body of the `resolve_teachers` loop. -/
def resolveMsgE (query : String → Option String) (m : LessonInfoMessage) :
    Except PyError LessonInfoMessage :=
  if m.parsed.core.hasTeachersAttr then
    match m.parsed.core.teachersAttr with
    | none => .error .typeError
    | some ts =>
      .ok { m with parsed := { m.parsed with
        core := m.parsed.core.setOtherInfo (resolveTeacherSet query ts) } }
  else .ok m

/-- Sequential traversal stopping at the first uncaught error, as the nested
`for` loops of `resolve_teachers` would. -/
def mapExcept {α β : Type} (g : α → Except PyError β) : List α → Except PyError (List β)
  | [] => .ok []
  | x :: xs =>
    match g x with
    | .error e => .error e
    | .ok y =>
      match mapExcept g xs with
      | .error e => .error e
      | .ok ys => .ok (y :: ys)

/-- `ParsedLessonInfo.resolve_teachers` (lines 692-702): bulk resolution over
all paragraphs and messages; the `try/except LookupError` sits inside the
message loop, so a failed lookup only degrades that message. -/
def ParsedLessonInfo.resolve_teachers (query : String → Option String)
    (info : ParsedLessonInfo) : Except PyError ParsedLessonInfo :=
  match mapExcept (fun p =>
      match mapExcept (resolveMsgE query) p.messages with
      | .error e => .error e
      | .ok msgs => .ok (LessonInfoParagraph.mk msgs p.index)) info.paragraphs with
  | .error e => .error e
  | .ok paragraphs => .ok ⟨paragraphs⟩

/-- The pure per-message transformation that `resolve_teachers` applies when
`_teachers` is an actual set (the claims' precondition). -/
def resolveMsgPure (query : String → Option String) (m : LessonInfoMessage) :
    LessonInfoMessage :=
  match m.parsed.core.teachersAttr with
  | none => m
  | some ts =>
    { m with parsed := { m.parsed with
        core := m.parsed.core.setOtherInfo (resolveTeacherSet query ts) } }

/-! ## Serialization (lines 115-128 and 583-592) -/

/-- JSON-like values produced by the `serialize` methods. -/
inductive JValue where
  | null
  | str (s : String)
  | num (n : Nat)
  | arr (xs : List JValue)
  | obj (fields : List (String × JValue))

/-- The string a `plan_type` literal serializes to. -/
def planTypeStr : PlanType → String
  | .forms => "forms"
  | .teachers => "teachers"
  | .rooms => "rooms"

/-- `date.isoformat()`. -/
def isoformat (d : Date) : String :=
  pad4 d.year ++ "-" ++ pad2 d.month ++ "-" ++ pad2 d.day

/-- `convert` of `SerializeMixin.serialize` on an optional date. -/
def jDateOpt : Option Date → JValue
  | none => .null
  | some d => .str (isoformat d)

/-- `convert` on a `set[str]`: `sorted(obj)`. -/
def jStrSet (s : Finset String) : JValue :=
  .arr ((sortedStrings s).map JValue.str)

/-- `convert` on an optional `set[str]`. -/
def jStrSetOpt : Option (Finset String) → JValue
  | none => .null
  | some s => jStrSet s

/-- `convert` on a `set[int]`: `sorted(obj)`. -/
def jNatSet (s : Finset Nat) : JValue :=
  .arr ((sortedNats s).map JValue.num)

/-- `convert` on an optional string. -/
def jStrOpt : Option String → JValue
  | none => .null
  | some s => .str s

/-- `SerializeMixin.serialize` per variant: the `type` tag (the class name)
followed by `dataclasses.asdict` in field-declaration order, each value
through `convert`. -/
def serializeCore : ParsedMsgCore → JValue
  | .movedFrom f =>
    .obj [("type", .str "MovedFrom"), ("plan_type", .str (planTypeStr f.plan_type)),
      ("plan_value", jStrSet f.plan_value), ("periods", jNatSet f.periods),
      ("date", jDateOpt f.date)]
  | .movedTo f =>
    .obj [("type", .str "MovedTo"), ("course", .str f.course),
      ("plan_type", .str (planTypeStr f.plan_type)), ("plan_value", jStrSet f.plan_value),
      ("other_info_value", jStrSetOpt f.other_info_value),
      ("_teachers", jStrSetOpt f._teachers), ("date", jDateOpt f.date),
      ("periods", jNatSet f.periods)]
  | .insteadOfCourse f periods =>
    .obj [("type", .str "InsteadOfCourse"), ("course", .str f.course),
      ("plan_type", .str (planTypeStr f.plan_type)), ("plan_value", jStrSet f.plan_value),
      ("other_info_value", jStrSetOpt f.other_info_value),
      ("_teachers", jStrSetOpt f._teachers), ("periods", jNatSet periods)]
  | .cancelled f periods =>
    .obj [("type", .str "Cancelled"), ("course", .str f.course),
      ("plan_type", .str (planTypeStr f.plan_type)), ("plan_value", jStrSet f.plan_value),
      ("other_info_value", jStrSetOpt f.other_info_value),
      ("_teachers", jStrSetOpt f._teachers), ("periods", jNatSet periods)]
  | .doIndependently => .obj [("type", .str "DoIndependently"), ("plan_type", .str "forms")]
  | .tasksInLernsax => .obj [("type", .str "TasksInLernsax"), ("plan_type", .str "forms")]
  | .tasksWereGiven => .obj [("type", .str "TasksWereGiven"), ("plan_type", .str "forms")]
  | .doAtLocation location =>
    .obj [("type", .str "DoAtLocation"), ("location", .str location),
      ("plan_type", .str "forms")]
  | .individualRevision location =>
    .obj [("type", .str "IndividualRevision"), ("location", jStrOpt location),
      ("plan_type", .str "forms")]
  | .exam last_name => .obj [("type", .str "Exam"), ("last_name", .str last_name)]
  | .wholeForm form periods =>
    .obj [("type", .str "WholeForm"), ("form", .str form), ("periods", jNatSet periods)]
  | .failedToParse => .obj [("type", .str "FailedToParse")]

/-- `LessonInfoTextSegmentLink.serialize` (via `SerializeMixin` with
`__serialize_type__ = self.type`). -/
def serializeLink (l : LessonInfoTextSegmentLink) : JValue :=
  .obj [("type", .str (planTypeStr l.type)), ("value", .arr (l.value.map JValue.str)),
    ("date", jDateOpt l.date),
    ("periods", match l.periods with
      | none => .null
      | some ps => .arr (ps.map JValue.num))]

/-- `LessonInfoTextSegment.serialize` (lines 561-565). -/
def serializeSegment (s : LessonInfoTextSegment) : JValue :=
  .obj [("text", .str s.text),
    ("link", match s.link with
      | none => .null
      | some l => serializeLink l)]

/-- `LessonInfoMessage.serialize` (lines 583-592): `parsed` is `None` exactly
for `FailedToParse`, else the variant's own serialization; `text_segments`
always renders. -/
def LessonInfoMessage.serialize (m : LessonInfoMessage) (lesson_date : Date)
    (env : RenderEnv) : JValue :=
  .obj [("parsed",
      if m.parsed.core = ParsedMsgCore.failedToParse then .null
      else serializeCore m.parsed.core),
    ("text_segments",
      .arr ((m.parsed.to_text_segments lesson_date env).map serializeSegment))]

/-! ## Concrete fixtures used by witness evaluations -/

/-- A concrete rendering environment. -/
def sampleEnv : RenderEnv where
  get_label_of_periods := fun ps => "St. " ++ String.intercalate "," ((sortedNats ps).map toString)
  weekday := fun d => ⟨d.day % 7, Nat.mod_lt _ (by omega)⟩
  forms_to_str := fun o => joinSet o
  fix_typography := fun s => s

/-- Course fields of the spec's Example 2 message. -/
def sampleCourseFields : CourseFields :=
  ⟨"MA", PlanType.forms, {"10/1"}, none, some {"Frau Musterfrau"}⟩

/-- A same-day `MovedTo` (date `None`). -/
def sampleMovedToNone : MovedToFields := ⟨sampleCourseFields, none, {3}⟩

/-- A dated `MovedTo` earlier than the sample lesson date 2023-06-08. -/
def sampleMovedToDated : MovedToFields := ⟨sampleCourseFields, some ⟨2023, 6, 5⟩, {3, 4}⟩

/-- A dated `MovedTo` later than the sample lesson date 2023-06-08. -/
def sampleMovedToFuture : MovedToFields := ⟨sampleCourseFields, some ⟨2023, 6, 9⟩, {3, 4}⟩

/-- A one-message lesson info whose `MovedTo` resolved to `{"MUS"}`. -/
def wInfoA : ParsedLessonInfo :=
  ⟨[⟨[⟨⟨.movedTo ⟨⟨"MA", PlanType.forms, {"10/1"}, some {"MUS"}, some {"Frau Musterfrau"}⟩,
    none, {3}⟩, "", "", ["MA Frau Musterfrau verlegt nach St.3"]⟩, 0⟩], 0⟩]⟩

/-- The same lesson info with a different resolved teacher abbreviation. -/
def wInfoB : ParsedLessonInfo :=
  ⟨[⟨[⟨⟨.movedTo ⟨⟨"MA", PlanType.forms, {"10/1"}, some {"XYZ"}, some {"Frau Musterfrau"}⟩,
    none, {3}⟩, "", "", ["MA Frau Musterfrau verlegt nach St.3"]⟩, 0⟩], 0⟩]⟩

/-- A teacher directory knowing only `"Frau Musterfrau"`. -/
def wQuery : String → Option String :=
  fun s => if s = "Frau Musterfrau" then some "MUS" else none

/-- Two course-bearing messages, one resolvable and one not. -/
def wResolveInfo : ParsedLessonInfo :=
  ⟨[⟨[⟨⟨.insteadOfCourse ⟨"MA", PlanType.forms, {"10/1"}, none, some {"Frau Musterfrau"}⟩ {3},
        "", "", ["für MA Frau Musterfrau"]⟩, 0⟩,
      ⟨⟨.cancelled ⟨"SPO", PlanType.forms, {"10/1"}, none, some {"Frau Unbekannt"}⟩ {4},
        "", "", ["SPO Frau Unbekannt fällt aus"]⟩, 1⟩], 0⟩]⟩

/-- A merged fallback message, as the paragraph parser builds them. -/
def wFailedMsg : LessonInfoMessage :=
  ⟨⟨.failedToParse, "", "", ["Aufsicht Vorbereitungsraum", "siehe Aushang"]⟩, 0⟩

/-! ## Regex engine

Python's `re` patterns of `_InfoParsers` are compiled by hand into
backtracking parser combinators: a pattern maps a state (remaining input +
named captures) to the list of possible successor states, ordered exactly as
`re`'s backtracking would try them (greedy quantifiers yield longer
alternatives first, alternation is left-to-right).  `match` takes the first
alternative at the start of the string; `search` the first position with a
match.  Unbounded repetition is fueled by the remaining input length and
discards zero-width repetition steps — no repeated subpattern of the source
can match the empty string, so this is only a termination device. -/

/-- Matching state: remaining input and named captures (most recent first,
as Python keeps a group's last capture). -/
structure PState where
  rest : List Char
  caps : List (String × List Char)
deriving DecidableEq

/-- A compiled pattern fragment. -/
def Pat : Type := PState → List PState

/-- The empty pattern. -/
def pEps : Pat := fun s => [s]

/-- A single character satisfying a class predicate. -/
def pChar (p : Char → Bool) : Pat := fun s =>
  match s.rest with
  | [] => []
  | c :: cs => if p c then [⟨cs, s.caps⟩] else []

/-- A single literal character. -/
def pCh (c : Char) : Pat := pChar (fun x => x = c)

/-- A literal string. -/
def pLit (l : List Char) : Pat := fun s =>
  if s.rest.take l.length = l then [⟨s.rest.drop l.length, s.caps⟩] else []

/-- Concatenation: continue each alternative of `a` with `b` (backtracking
order preserved). -/
def pSeq (a b : Pat) : Pat := fun s => (a s).flatMap b

/-- Alternation `a|b`: `a`'s alternatives are preferred. -/
def pAlt (a b : Pat) : Pat := fun s => a s ++ b s

/-- Greedy option `a?`. -/
def pOpt (a : Pat) : Pat := fun s => a s ++ [s]

/-- Greedy star, fueled (see the section comment). -/
def pStarAux (a : Pat) : Nat → Pat
  | 0 => pEps
  | n + 1 => fun s =>
    (((a s).filter (fun t => t.rest.length < s.rest.length)).flatMap (pStarAux a n)) ++ [s]

/-- Greedy `a*`. -/
def pStar (a : Pat) : Pat := fun s => pStarAux a s.rest.length s

/-- Greedy `a+`. -/
def pPlus (a : Pat) : Pat := pSeq a (pStar a)

/-- Exactly `n` repetitions. -/
def pRepExact (a : Pat) : Nat → Pat
  | 0 => pEps
  | n + 1 => pSeq a (pRepExact a n)

/-- Greedily up to `n` repetitions. -/
def pRepUpTo (a : Pat) : Nat → Pat
  | 0 => pEps
  | n + 1 => fun s => ((a s).flatMap (pRepUpTo a n)) ++ [s]

/-- Greedy bounded repetition `a{lo,hi}`. -/
def pRepRange (a : Pat) (lo hi : Nat) : Pat := pSeq (pRepExact a lo) (pRepUpTo a (hi - lo))

/-- Named capture group `(?P<name>a)`: records the consumed span. -/
def pGroup (name : String) (a : Pat) : Pat := fun s =>
  (a s).map (fun t => ⟨t.rest, (name, s.rest.take (s.rest.length - t.rest.length)) :: t.caps⟩)

/-- `pattern.match(text)`: the backtracking-first match anchored at the
start; returns the match length and captures. -/
def patMatch (a : Pat) (cs : List Char) : Option (Nat × List (String × List Char)) :=
  match a ⟨cs, []⟩ with
  | [] => none
  | t :: _ => some (cs.length - t.rest.length, t.caps)

/-- `pattern.search(text)`: the match at the leftmost matching position;
returns absolute start, absolute end and captures. -/
def patSearchAux (a : Pat) : Nat → List Char → Option (Nat × Nat × List (String × List Char))
  | k, cs =>
    match patMatch a cs with
    | some (len, caps) => some (k, k + len, caps)
    | none =>
      match cs with
      | [] => none
      | _ :: cs2 => patSearchAux a (k + 1) cs2

/-- `pattern.search(text)` from position 0. -/
def patSearch (a : Pat) (cs : List Char) : Option (Nat × Nat × List (String × List Char)) :=
  patSearchAux a 0 cs

/-- `match.group(name)` (first entry is the group's last capture). -/
def capStr (caps : List (String × List Char)) (name : String) : Option (List Char) :=
  caps.lookup name

/-- `int(...)` on a captured digit string. -/
def digitsToNat (ds : List Char) : Nat :=
  ds.foldl (fun acc c => acc * 10 + (c.toNat - 48)) 0

/-- Shorthand for string literals as character lists. -/
def toL (s : String) : List Char := s.toList

/-! ### Character classes of `_InfoParsers` -/

/-- `[A-ZÄÖÜ]`. -/
def isUpperGerman (c : Char) : Bool :=
  ('A' ≤ c && c ≤ 'Z') || c = 'Ä' || c = 'Ö' || c = 'Ü'

/-- `[a-zäöüß]`. -/
def isLowerGerman (c : Char) : Bool :=
  ('a' ≤ c && c ≤ 'z') || c = 'ä' || c = 'ö' || c = 'ü' || c = 'ß'

/-- `\d`. -/
def isDigitCh (c : Char) : Bool := '0' ≤ c && c ≤ '9'

/-- The course class `[A-Za-z0-9ÄÖÜäöüß/\-_]`. -/
def isCourseChar (c : Char) : Bool :=
  ('A' ≤ c && c ≤ 'Z') || ('a' ≤ c && c ≤ 'z') || isDigitCh c ||
    c = 'Ä' || c = 'Ö' || c = 'Ü' || c = 'ä' || c = 'ö' || c = 'ü' || c = 'ß' ||
    c = '/' || c = '-' || c = '_'

/-- Python `\w` on the characters occurring in plan texts (ASCII word
characters plus the German letters). -/
def isWordCh (c : Char) : Bool :=
  ('A' ≤ c && c ≤ 'Z') || ('a' ≤ c && c ≤ 'z') || isDigitCh c || c = '_' ||
    c = 'Ä' || c = 'Ö' || c = 'Ü' || c = 'ä' || c = 'ö' || c = 'ü' || c = 'ß'

/-- The apostrophe character of `_name_element`. -/
def apostropheCh : Char := Char.ofNat 39

/-! ### The grammar patterns of `_InfoParsers` (lines 24-101) -/

/-- `_name_element = (?:[A-ZÄÖÜ]')?[A-ZÄÖÜ][a-zäöüß]+(?:-[A-ZÄÖÜ][a-zäöüß]+)*\.?`. -/
def pNameElement : Pat :=
  pSeq (pOpt (pSeq (pChar isUpperGerman) (pCh apostropheCh)))
    (pSeq (pChar isUpperGerman)
      (pSeq (pPlus (pChar isLowerGerman))
        (pSeq (pStar (pSeq (pCh '-')
            (pSeq (pChar isUpperGerman) (pPlus (pChar isLowerGerman)))))
          (pOpt (pCh '.')))))

/-- `_teacher_name`: name element, any number of optionally-space-separated
further elements, optional `" van"`, then a mandatory space and element. -/
def pTeacherName : Pat :=
  pSeq pNameElement
    (pSeq (pStar (pSeq (pOpt (pCh ' ')) pNameElement))
      (pSeq (pOpt (pLit (toL " van")))
        (pSeq (pCh ' ') pNameElement)))

/-- `_teacher_abbreviation = [A-ZÄÖÜ][A-ZÄÖÜa-zäöüß]{2,}`. -/
def pTeacherAbbreviation : Pat :=
  pSeq (pChar isUpperGerman)
    (pSeq (pRepExact (pChar (fun c => isUpperGerman c || isLowerGerman c)) 2)
      (pStar (pChar (fun c => isUpperGerman c || isLowerGerman c))))

/-- `_teacher`: full name or abbreviation. -/
def pTeacher : Pat := pAlt pTeacherName pTeacherAbbreviation

/-- `_teachers = _teacher(?:, ?_teacher)*`. -/
def pTeachers : Pat :=
  pSeq pTeacher (pStar (pSeq (pCh ',') (pSeq (pOpt (pCh ' ')) pTeacher)))

/-- `_course = ([A-Za-z0-9ÄÖÜäöüß/\-_]{2,8})` wrapped as `(?P<course>...)`. -/
def pCourse : Pat := pGroup "course" (pRepRange (pChar isCourseChar) 2 8)

/-- `_period = St\.(?P<periods>(?P<period_begin>\d{1,2})(?:-(?P<period_end>\d{1,2}))?)`. -/
def pPeriod : Pat :=
  pSeq (pLit (toL "St."))
    (pGroup "periods"
      (pSeq (pGroup "period_begin" (pRepRange (pChar isDigitCh) 1 2))
        (pOpt (pSeq (pCh '-') (pGroup "period_end" (pRepRange (pChar isDigitCh) 1 2))))))

/-- `_weekday = (?:Mo|Di|Mi|Do|Fr|Sa|So)`. -/
def pWeekday : Pat :=
  pAlt (pLit (toL "Mo")) (pAlt (pLit (toL "Di")) (pAlt (pLit (toL "Mi"))
    (pAlt (pLit (toL "Do")) (pAlt (pLit (toL "Fr")) (pAlt (pLit (toL "Sa"))
      (pLit (toL "So")))))))

/-- `_date = \d{2}\.\d{2}\.`. -/
def pDate : Pat :=
  pSeq (pRepExact (pChar isDigitCh) 2)
    (pSeq (pCh '.') (pSeq (pRepExact (pChar isDigitCh) 2) (pCh '.')))

/-- `_lesson_specifier = _weekday \((?P<date>_date)\) _period`. -/
def pLessonSpecifier : Pat :=
  pSeq pWeekday (pSeq (pLit (toL " ("))
    (pSeq (pGroup "date" pDate) (pSeq (pLit (toL ") ")) pPeriod)))

/-- Modelled from the spec: the form pattern `_parse_form_pattern.pattern`
comes from `backend.vplan_utils`, which is not among the analysed sources.
The spec's forms are grade/group identifiers such as `"10/1"` and `"6/2"`
(glossary; §4.2): modelled as digits optionally followed by `/` and digits. -/
def pFormSpec : Pat :=
  pSeq (pPlus (pChar isDigitCh)) (pOpt (pSeq (pCh '/') (pPlus (pChar isDigitCh))))

/-- `moved_from = verlegt von _period`. -/
def moved_from_pat : Pat := pSeq (pLit (toL "verlegt von ")) pPeriod

/-- `substitution = für (?P<course>_course) (?P<teachers>_teachers)`. -/
def substitution_pat : Pat :=
  pSeq (pLit (toL "für ")) (pSeq pCourse (pSeq (pCh ' ') (pGroup "teachers" pTeachers)))

/-- `instead_of = statt _weekday \((?P<date>_date)\) _period`. -/
def instead_of_pat : Pat :=
  pSeq (pLit (toL "statt ")) (pSeq pWeekday (pSeq (pLit (toL " ("))
    (pSeq (pGroup "date" pDate) (pSeq (pLit (toL ") ")) pPeriod))))

/-- `held_at = (?P<course>...) (?P<teachers>...) gehalten am _lesson_specifier`. -/
def held_at_pat : Pat :=
  pSeq pCourse (pSeq (pCh ' ') (pSeq (pGroup "teachers" pTeachers)
    (pSeq (pLit (toL " gehalten am ")) pLessonSpecifier)))

/-- `moved_to = (?P<course>...) (?P<teachers>...) verlegt nach _period`. -/
def moved_to_pat : Pat :=
  pSeq pCourse (pSeq (pCh ' ') (pSeq (pGroup "teachers" pTeachers)
    (pSeq (pLit (toL " verlegt nach ")) pPeriod)))

/-- `moved_to_date = (?P<course>...) (?P<teachers>...) verlegt nach _lesson_specifier`. -/
def moved_to_date_pat : Pat :=
  pSeq pCourse (pSeq (pCh ' ') (pSeq (pGroup "teachers" pTeachers)
    (pSeq (pLit (toL " verlegt nach ")) pLessonSpecifier)))

/-- `cancelled = (?P<course>...) (?P<teachers>...) (fällt aus|entfällt)`. -/
def cancelled_pat : Pat :=
  pSeq pCourse (pSeq (pCh ' ') (pSeq (pGroup "teachers" pTeachers)
    (pSeq (pCh ' ') (pAlt (pLit (toL "fällt aus")) (pLit (toL "entfällt"))))))

/-- `independent = selbst\.(?: \(.\))?` (`.` is any non-newline character). -/
def independent_pat : Pat :=
  pSeq (pLit (toL "selbst."))
    (pOpt (pSeq (pLit (toL " ("))
      (pSeq (pChar (fun c => c ≠ '\x0a')) (pCh ')'))))

/-- `tasks_in_lernsax = Aufgaben stehen im LernSax`. -/
def tasks_in_lernsax_pat : Pat := pLit (toL "Aufgaben stehen im LernSax")

/-- `tasks_were_given = Aufgaben wurden erteilt`. -/
def tasks_were_given_pat : Pat := pLit (toL "Aufgaben wurden erteilt")

/-- `do_where = bitte(( \w+)+) bearbeiten`; group 1 is the location clause. -/
def do_where_pat : Pat :=
  pSeq (pLit (toL "bitte"))
    (pSeq (pGroup "where" (pPlus (pSeq (pCh ' ') (pPlus (pChar isWordCh)))))
      (pLit (toL " bearbeiten")))

/-- `whole_form = gesamte Klasse (?P<form>_form)`. -/
def whole_form_pat : Pat :=
  pSeq (pLit (toL "gesamte Klasse ")) (pGroup "form" pFormSpec)

/-- `individual_revision = individuelle Nachbearbeitung des aktuellen Stoffes
(?P<location>in der Bibo)?`. -/
def individual_revision_pat : Pat :=
  pSeq (pLit (toL "individuelle Nachbearbeitung des aktuellen Stoffes "))
    (pOpt (pGroup "location" (pLit (toL "in der Bibo"))))

/-- `exam = Prüfung (?P<last_name>[A-ZÄÖÜ][a-zäöüß]+)`. -/
def exam_pat : Pat :=
  pSeq (pLit (toL "Prüfung "))
    (pGroup "last_name" (pSeq (pChar isUpperGerman) (pPlus (pChar isLowerGerman))))

/-! ## The Lesson collaborator and the grammar cascade
(`lesson_info.py` lines 436-541) -/

/-- The `Lesson` collaborator (spec §6; `backend.models` is not among the
analysed sources): exactly the fields the cascade and teacher inference
read.  `class_number` is `lesson.class_opt.number`. -/
structure Lesson where
  forms : Finset String
  periods : Finset Nat
  teachers : Option (List String)
  _lesson_date : Date
  _is_scheduled : Bool
  class_number : Option String
  parsed_info : ParsedLessonInfo

/-- Python `str.strip()`. -/
def stripChars (cs : List Char) : List Char :=
  ((cs.dropWhile (fun c => isSpaceCh c)).reverse.dropWhile (fun c => isSpaceCh c)).reverse

/-- `re.sub(r"(?<=\w)/ ", "/", info)`: drop the space of every `"/ "`
preceded by a word character (the lookbehind reads the original text; the
flag tracks whether the previously consumed original character is a word
character). -/
def slashFixAux : Bool → List Char → List Char
  | prevW, '/' :: ' ' :: rest =>
    if prevW then '/' :: slashFixAux false rest
    else '/' :: slashFixAux false (' ' :: rest)
  | _, c :: rest => c :: slashFixAux (isWordCh c) rest
  | _, [] => []

/-- The slash-space normalization of `_parse_message`. -/
def slashFix (cs : List Char) : List Char := slashFixAux false cs

/-- Modelled from the spec: `parse_periods` from `backend.vplan_utils` (not
among the analysed sources): "Period ranges expand to an explicit set of
integers (a-b inclusive)".  It receives the text of the `periods` capture
group, e.g. `"3"` or `"3-5"`. -/
def parse_periods (cs : List Char) : Finset Nat :=
  match cs.splitOn '-' with
  | [a] => {digitsToNat a}
  | [a, b] => Finset.Icc (digitsToNat a) (digitsToNat b)
  | _ => ∅

/-- `datetime.strptime(f'{match.group("date")}{year}', "%d.%m.%Y").date()`:
the captured `date` group is `dd.mm.` and the year comes from the lesson.
(`strptime`'s calendar validation, which raises on out-of-range values, is
not modelled; no claim involves an invalid date.) -/
def strptimeDM (ds : List Char) (year : Nat) : Date :=
  ⟨year, digitsToNat ((ds.drop 3).take 2), digitsToNat (ds.take 2)⟩

/-- `set(match.group("teachers").split(","))`. -/
def teacherSetOf (caps : List (String × List Char)) : Finset String :=
  ((((capStr caps "teachers").getD []).splitOn ',').map String.mk).toFinset

/-- The result of one cascade rule: the built variant plus the match span. -/
abbrev RuleResult : Type := Option (ParsedMsgCore × Nat × Nat)

/-- Branch `if match := _InfoParsers.substitution.match(info)` of
`_parse_form_plan_message`. -/
def ruleSubstitution (info : List Char) (lesson : Lesson) : RuleResult :=
  match patMatch substitution_pat info with
  | none => none
  | some (len, caps) =>
    some (.insteadOfCourse
      ⟨String.mk ((capStr caps "course").getD []), PlanType.forms, lesson.forms, none,
        some (teacherSetOf caps)⟩ lesson.periods, 0, len)

/-- Branch `moved_from.match`: same-day `MovedFrom`, periods
`{int(match.group("period_begin"))}` — the bare begin, not the range. -/
def ruleMovedFrom (info : List Char) (lesson : Lesson) : RuleResult :=
  match patMatch moved_from_pat info with
  | none => none
  | some (len, caps) =>
    some (.movedFrom ⟨PlanType.forms, lesson.forms,
      {digitsToNat ((capStr caps "period_begin").getD [])}, none⟩, 0, len)

/-- Branch `instead_of.match`: cross-day `MovedFrom` with expanded periods
and a date completed by the lesson's year. -/
def ruleInsteadOf (info : List Char) (lesson : Lesson) : RuleResult :=
  match patMatch instead_of_pat info with
  | none => none
  | some (len, caps) =>
    some (.movedFrom ⟨PlanType.forms, lesson.forms,
      parse_periods ((capStr caps "periods").getD []),
      some (strptimeDM ((capStr caps "date").getD []) lesson._lesson_date.year)⟩, 0, len)

/-- Branch `held_at.match`: dated `MovedTo`. -/
def ruleHeldAt (info : List Char) (lesson : Lesson) : RuleResult :=
  match patMatch held_at_pat info with
  | none => none
  | some (len, caps) =>
    some (.movedTo ⟨⟨String.mk ((capStr caps "course").getD []), PlanType.forms, lesson.forms,
      none, some (teacherSetOf caps)⟩,
      some (strptimeDM ((capStr caps "date").getD []) lesson._lesson_date.year),
      parse_periods ((capStr caps "periods").getD [])⟩, 0, len)

/-- Branch `moved_to.match`: same-day `MovedTo` (date `None`). -/
def ruleMovedTo (info : List Char) (lesson : Lesson) : RuleResult :=
  match patMatch moved_to_pat info with
  | none => none
  | some (len, caps) =>
    some (.movedTo ⟨⟨String.mk ((capStr caps "course").getD []), PlanType.forms, lesson.forms,
      none, some (teacherSetOf caps)⟩, none,
      parse_periods ((capStr caps "periods").getD [])⟩, 0, len)

/-- Branch `moved_to_date.match`: dated `MovedTo`. -/
def ruleMovedToDate (info : List Char) (lesson : Lesson) : RuleResult :=
  match patMatch moved_to_date_pat info with
  | none => none
  | some (len, caps) =>
    some (.movedTo ⟨⟨String.mk ((capStr caps "course").getD []), PlanType.forms, lesson.forms,
      none, some (teacherSetOf caps)⟩,
      some (strptimeDM ((capStr caps "date").getD []) lesson._lesson_date.year),
      parse_periods ((capStr caps "periods").getD [])⟩, 0, len)

/-- Branch `cancelled.match`. -/
def ruleCancelled (info : List Char) (lesson : Lesson) : RuleResult :=
  match patMatch cancelled_pat info with
  | none => none
  | some (len, caps) =>
    some (.cancelled ⟨String.mk ((capStr caps "course").getD []), PlanType.forms, lesson.forms,
      none, some (teacherSetOf caps)⟩ lesson.periods, 0, len)

/-- Branch `exam.search` — a search, matching anywhere in the text. -/
def ruleExam (info : List Char) (_lesson : Lesson) : RuleResult :=
  match patSearch exam_pat info with
  | none => none
  | some (s, e, caps) =>
    some (.exam (String.mk ((capStr caps "last_name").getD [])), s, e)

/-- Branch `do_where.search`: `DoAtLocation(match.group(1).strip())`. -/
def ruleDoWhere (info : List Char) (_lesson : Lesson) : RuleResult :=
  match patSearch do_where_pat info with
  | none => none
  | some (s, e, caps) =>
    some (.doAtLocation (String.mk (stripChars ((capStr caps "where").getD []))), s, e)

/-- Branch `individual_revision.search`: optional location group. -/
def ruleIndividualRevision (info : List Char) (_lesson : Lesson) : RuleResult :=
  match patSearch individual_revision_pat info with
  | none => none
  | some (s, e, caps) =>
    some (.individualRevision ((capStr caps "location").map String.mk), s, e)

/-- Branch `whole_form.search`: the form with spaces removed. -/
def ruleWholeForm (info : List Char) (lesson : Lesson) : RuleResult :=
  match patSearch whole_form_pat info with
  | none => none
  | some (s, e, caps) =>
    some (.wholeForm (String.mk (((capStr caps "form").getD []).filter (fun c => c ≠ ' ')))
      lesson.periods, s, e)

/-- Branch `independent.search`. -/
def ruleIndependent (info : List Char) (_lesson : Lesson) : RuleResult :=
  match patSearch independent_pat info with
  | none => none
  | some (s, e, _) => some (.doIndependently, s, e)

/-- Branch `tasks_in_lernsax.search`. -/
def ruleTasksInLernsax (info : List Char) (_lesson : Lesson) : RuleResult :=
  match patSearch tasks_in_lernsax_pat info with
  | none => none
  | some (s, e, _) => some (.tasksInLernsax, s, e)

/-- Branch `tasks_were_given.search`. -/
def ruleTasksWereGiven (info : List Char) (_lesson : Lesson) : RuleResult :=
  match patSearch tasks_were_given_pat info with
  | none => none
  | some (s, e, _) => some (.tasksWereGiven, s, e)

/-- `_parse_form_plan_message` (lines 436-517): the if/elif cascade, first
seven rules via `.match`, the remaining eight via `.search`, else
`FailedToParse` with no span. -/
def _parse_form_plan_message (info : List Char) (lesson : Lesson) :
    ParsedMsgCore × Option (Nat × Nat) :=
  match ruleSubstitution info lesson with
  | some (m, s, e) => (m, some (s, e))
  | none =>
  match ruleMovedFrom info lesson with
  | some (m, s, e) => (m, some (s, e))
  | none =>
  match ruleInsteadOf info lesson with
  | some (m, s, e) => (m, some (s, e))
  | none =>
  match ruleHeldAt info lesson with
  | some (m, s, e) => (m, some (s, e))
  | none =>
  match ruleMovedTo info lesson with
  | some (m, s, e) => (m, some (s, e))
  | none =>
  match ruleMovedToDate info lesson with
  | some (m, s, e) => (m, some (s, e))
  | none =>
  match ruleCancelled info lesson with
  | some (m, s, e) => (m, some (s, e))
  | none =>
  match ruleExam info lesson with
  | some (m, s, e) => (m, some (s, e))
  | none =>
  match ruleDoWhere info lesson with
  | some (m, s, e) => (m, some (s, e))
  | none =>
  match ruleIndividualRevision info lesson with
  | some (m, s, e) => (m, some (s, e))
  | none =>
  match ruleWholeForm info lesson with
  | some (m, s, e) => (m, some (s, e))
  | none =>
  match ruleIndependent info lesson with
  | some (m, s, e) => (m, some (s, e))
  | none =>
  match ruleTasksInLernsax info lesson with
  | some (m, s, e) => (m, some (s, e))
  | none =>
  match ruleTasksWereGiven info lesson with
  | some (m, s, e) => (m, some (s, e))
  | none => (.failedToParse, none)

/-- The cascade as a data-driven ordered rule list (the spec's reading of
§4.2): rules in priority order, first producing rule wins. -/
def ruleList : List (List Char → Lesson → RuleResult) :=
  [ruleSubstitution, ruleMovedFrom, ruleInsteadOf, ruleHeldAt, ruleMovedTo,
    ruleMovedToDate, ruleCancelled, ruleExam, ruleDoWhere, ruleIndividualRevision,
    ruleWholeForm, ruleIndependent, ruleTasksInLernsax, ruleTasksWereGiven]

/-- First-match semantics over an ordered rule list, `FailedToParse` when no
rule produces a result. -/
def applyFirstRule : List (List Char → Lesson → RuleResult) → List Char → Lesson →
    ParsedMsgCore × Option (Nat × Nat)
  | [], _, _ => (.failedToParse, none)
  | r :: rs, info, lesson =>
    match r info lesson with
    | some (m, s, e) => (m, some (s, e))
    | none => applyFirstRule rs info lesson

/-- `_parse_message` (lines 520-541): strip, slash normalization, the cascade
(for the forms plan; other plan types fall straight to `FailedToParse`), then
`before`/`after`/`original_messages` from the match span. -/
def _parse_message (info0 : List Char) (lesson : Lesson) (plan_type : PlanType) :
    ParsedInfoMsg :=
  let info := slashFix (stripChars info0)
  let pr :=
    if plan_type = PlanType.forms then _parse_form_plan_message info lesson
    else (ParsedMsgCore.failedToParse, none)
  match pr.2 with
  | some (s, e) =>
    ⟨pr.1, String.mk (info.take s), String.mk (info.drop e),
      [String.mk ((info.drop s).take (e - s))]⟩
  | none => ⟨pr.1, "", "", [String.mk info]⟩

/-- A concrete lesson: forms `{"10/1"}`, periods `{7}`, date 2023-06-08. -/
def sampleLesson : Lesson :=
  ⟨{"10/1"}, {7}, none, ⟨2023, 6, 8⟩, false, none, ⟨[]⟩⟩

/-! ## 4.5 Teacher inference: `extract_teachers` (lines 727-802) -/

/-- `models.Class` (spec §6: class id → subject, optional group, forms,
teacher abbreviation). -/
structure SchoolClass where
  subject : String
  group : Option String
  forms : Finset String
  teacher : String
deriving DecidableEq

/-- `backend.teacher.Teacher` (spec §6): canonical abbreviation, optional
full name, first/last seen dates. -/
structure Teacher where
  plan_short : String
  plan_long : Option String := none
  last_seen : Date
  first_seen : Date
deriving DecidableEq

/-- `next(iter(ts))` over a Python set, enumerated in sorted order (the
claims only reach singleton sets, where any order agrees; on the empty set
Python would raise `StopIteration`). -/
def firstOfSet (ts : Finset String) : Option String :=
  (ts.sort (· ≤ ·)).head?

/-- Python truthiness of an optional string (`None` and `""` are falsy). -/
def optStrTruthy : Option String → Bool
  | none => false
  | some s => s ≠ ""

/-- Python `str.split()` (whitespace runs, empties discarded). -/
def splitWs (s : String) : List String :=
  (((s.toList.splitOnP (fun c => isSpaceCh c)).filter (fun w => w ≠ [])).map String.mk)

/-- `class_.group or class_.subject`. -/
def groupOrSubject (c : SchoolClass) : String :=
  match c.group with
  | some g => if g ≠ "" then g else c.subject
  | none => c.subject

/-- `{c.teacher for c in _class.values()}` as a duplicate-free list (its
length is the number of distinct teacher abbreviations). -/
def distinctTeachers (cls : List (String × SchoolClass)) : List String :=
  (cls.map (fun x => x.2.teacher)).dedup

/-- The other-info gate `getattr(message.parsed, "other_info_value", -1) is
None`: `some v` when the attribute exists with value `v`. -/
def coreOtherInfoAttr : ParsedMsgCore → Option (Option (Finset String))
  | .movedTo f => some f.other_info_value
  | .insteadOfCourse f _ => some f.other_info_value
  | .cancelled f _ => some f.other_info_value
  | _ => none

/-- `hasattr(message.parsed, "course")` with the attribute's value. -/
def coreCourseAttr : ParsedMsgCore → Option String
  | .movedTo f => some f.course
  | .insteadOfCourse f _ => some f.course
  | .cancelled f _ => some f.course
  | _ => none

/-- The candidate-class narrowing chain of `extract_teachers` (lines
756-780): filter by course = (group or subject) and forms ⊆ class forms;
relax the course test to subject-only if empty; if several distinct teachers
remain and the lesson has a truthy class number, narrow to that class id when
non-empty; if still several, keep classes whose teacher's first letter starts
the surname's second token. -/
def narrowClasses (lesson : Lesson) (classes : List (String × SchoolClass))
    (course surname : String) : List (String × SchoolClass) :=
  let cls1 := classes.filter (fun x =>
    decide (course = groupOrSubject x.2) && decide (lesson.forms ⊆ x.2.forms))
  let cls2 :=
    if cls1 = [] then
      classes.filter (fun x =>
        decide (course = x.2.subject) && decide (lesson.forms ⊆ x.2.forms))
    else cls1
  let _name := ((splitWs surname).getD 1 "")
  let cls3 :=
    if (distinctTeachers cls2).length > 1 ∧ optStrTruthy lesson.class_number then
      let newClasses := cls2.filter (fun x => decide (some x.1 = lesson.class_number))
      if newClasses ≠ [] then newClasses else cls2
    else cls2
  if (distinctTeachers cls3).length > 1 then
    cls3.filter (fun x =>
      decide (x.2.teacher ≠ "") && _name.startsWith (x.2.teacher.take 1))
  else cls3

/-- The acceptance step after narrowing:
`list(_class.values())[0].teacher` with the alphabetic-character check
(`any(c.isalpha() for c in abbreviation)`; `Char.isAlpha` models Python's
`str.isalpha` on the ASCII range, where all plan abbreviations live). -/
def acceptAbbrev (lesson : Lesson) (surname : String) :
    List (String × SchoolClass) → Option Teacher
  | [] => none
  | x :: _ =>
    if x.2.teacher.toList.any (fun c => c.isAlpha) then
      some ⟨x.2.teacher, some surname, lesson._lesson_date, lesson._lesson_date⟩
    else none

def inferFromCandidates (lesson : Lesson) (classes : List (String × SchoolClass))
    (course surname : String) : Option Teacher :=
  if (splitWs surname).length = 1 then none
  else if (distinctTeachers (narrowClasses lesson classes course surname)).length ≠ 1 then
    none
  else acceptAbbrev lesson surname (narrowClasses lesson classes course surname)

/-- The per-message body of the `extract_teachers` loop: the message must be
course-bearing with `other_info_value is None` and `_teachers is not None`;
the surname is one element of `_teachers`. -/
def inferTeacherForMessage (lesson : Lesson) (classes : List (String × SchoolClass))
    (m : LessonInfoMessage) : Option Teacher :=
  match coreOtherInfoAttr m.parsed.core, coreCourseAttr m.parsed.core,
      m.parsed.core.teachersAttr with
  | some none, some course, some ts =>
    match firstOfSet ts with
    | none => none
    | some surname => inferFromCandidates lesson classes course surname
  | _, _, _ => none

/-- Python-dict upsert on an insertion-ordered association list. -/
def upsert (out : List (String × Teacher)) (k : String) (t : Teacher) :
    List (String × Teacher) :=
  if out.any (fun x => x.1 = k) then
    out.map (fun x => if x.1 = k then (k, t) else x)
  else out ++ [(k, t)]

/-- `extract_teachers` (lines 727-802): seed records for the lesson's own
teacher abbreviations, return nothing at all for scheduled lessons, else add
one inferred record per accepted course-bearing message. -/
def extract_teachers (lesson : Lesson) (classes : List (String × SchoolClass)) :
    List Teacher :=
  let initial : List (String × Teacher) :=
    (lesson.teachers.getD []).foldl (fun acc short =>
      upsert acc short ⟨short, none, lesson._lesson_date, lesson._lesson_date⟩) []
  if lesson._is_scheduled then []
  else
    ((lesson.parsed_info.paragraphs.flatMap (fun p => p.messages)).foldl
      (fun acc m =>
        match inferTeacherForMessage lesson classes m with
        | none => acc
        | some t => upsert acc t.plan_short t) initial).map (fun x => x.2)

/-! DEFS-BELOW -/

/-! THEOREMS-BELOW -/

/-! ### Segmenter lemmas (C3) -/

theorem piecesFrom_ne_nil (s : List Char) (start : Nat) (idxs : List Nat) :
    piecesFrom s start idxs ≠ [] := by
  cases idxs <;> simp [piecesFrom]

theorem joinSep_cons (sep : Char) (x : List Char) (l : List (List Char)) (h : l ≠ []) :
    joinSep sep (x :: l) = x ++ sep :: joinSep sep l := by
  cases l with
  | nil => exact absurd rfl h
  | cons y rest => rfl

theorem joinSep_piecesFrom_sepIndexesAux (parens : List (Char × Char)) (sep : Char)
    (s : List Char) :
    ∀ (cs : List Char) (stack : List Char) (start i0 : Nat),
      cs = s.drop i0 → start ≤ i0 →
      joinSep sep (piecesFrom s start (sepIndexesAux parens sep stack cs i0)) = s.drop start := by
  intro cs
  induction cs with
  | nil =>
    intro stack start i0 _ _
    simp [sepIndexesAux, piecesFrom, joinSep]
  | cons c cs ih =>
    intro stack start i0 hdrop hle
    have hdrop1 : cs = s.drop (i0 + 1) := by
      have h2 := List.drop_drop 1 i0 s
      rw [← hdrop] at h2
      simpa using h2
    have step : ∀ stack2 : List Char,
        joinSep sep (piecesFrom s start (sepIndexesAux parens sep stack2 cs (i0 + 1)))
          = s.drop start :=
      fun stack2 => ih stack2 start (i0 + 1) hdrop1 (Nat.le_succ_of_le hle)
    have steprec :
        joinSep sep (piecesFrom s (i0 + 1) (sepIndexesAux parens sep [] cs (i0 + 1)))
          = s.drop (i0 + 1) :=
      ih [] (i0 + 1) (i0 + 1) hdrop1 (Nat.le_refl _)
    cases hc : parens.lookup c with
    | some closing =>
      simpa [sepIndexesAux, hc] using step (closing :: stack)
    | none =>
      cases stack with
      | cons top rest =>
        by_cases htop : c = top
        · subst htop
          simpa [sepIndexesAux, hc] using step rest
        · simpa [sepIndexesAux, hc, htop] using step (top :: rest)
      | nil =>
        by_cases hsep : c = sep
        · subst hsep
          have hsplit : s.drop start =
              (s.drop start).take (i0 - start) ++ c :: s.drop (i0 + 1) := by
            conv_lhs => rw [← List.take_append_drop (i0 - start) (s.drop start)]
            congr 1
            have h3 : (s.drop start).drop (i0 - start) = s.drop (start + (i0 - start)) :=
              List.drop_drop (i0 - start) start s
            rw [h3, Nat.add_sub_cancel' hle, ← hdrop, hdrop1]
          simp only [sepIndexesAux, hc, if_pos rfl, piecesFrom]
          rw [joinSep_cons c _ _ (piecesFrom_ne_nil s (i0 + 1) _), steprec]
          exact hsplit.symm
        · simpa [sepIndexesAux, hc, hsep] using step []

/-- Splitting at a single `k = 0` versus `k + 1` case analysis for bounded
existentials, used for the separator-position characterization. -/
theorem exists_lt_succ_split {n : Nat} {P : Nat → Prop} :
    (∃ k, k < n + 1 ∧ P k) ↔ P 0 ∨ ∃ k, k < n ∧ P (k + 1) := by
  constructor
  · rintro ⟨k, hk, h⟩
    cases k with
    | zero => exact Or.inl h
    | succ k => exact Or.inr ⟨k, by omega, h⟩
  · rintro (h | ⟨k, hk, h⟩)
    · exact ⟨0, by omega, h⟩
    · exact ⟨k + 1, by omega, h⟩

theorem mem_sepIndexesAux (parens : List (Char × Char)) (sep : Char)
    (hsep : parens.lookup sep = none) :
    ∀ (cs : List Char) (stack : List Char) (i0 j : Nat),
      j ∈ sepIndexesAux parens sep stack cs i0 ↔
        ∃ k, k < cs.length ∧ j = i0 + k ∧ cs.getD k ' ' = sep ∧
          stackAfter parens stack (cs.take k) = [] := by
  intro cs
  induction cs with
  | nil =>
    intro stack i0 j
    simp [sepIndexesAux]
  | cons c cs ih =>
    intro stack i0 j
    have hlen : (c :: cs).length = cs.length + 1 := rfl
    rw [hlen, exists_lt_succ_split]
    have hk0 : ∀ k : Nat, (c :: cs).getD (k + 1) ' ' = cs.getD k ' ' := by
      intro k; rfl
    cases hc : parens.lookup c with
    | some closing =>
      have hne : c ≠ sep := by
        intro h; rw [h, hsep] at hc; cases hc
      have htake : ∀ k : Nat,
          stackAfter parens stack ((c :: cs).take (k + 1))
            = stackAfter parens (closing :: stack) (cs.take k) := by
        intro k; simp [stackAfter, hc]
      simp only [sepIndexesAux, hc]
      rw [ih (closing :: stack) (i0 + 1) j]
      constructor
      · rintro ⟨k, hk, hj, hch, hst⟩
        refine Or.inr ⟨k, hk, by omega, ?_, ?_⟩
        · simpa [hk0] using hch
        · rw [htake]; exact hst
      · rintro (⟨_, hch, _⟩ | ⟨k, hk, hj, hch, hst⟩)
        · exact absurd hch hne
        · exact ⟨k, hk, by omega, by simpa [hk0] using hch, by rw [htake] at hst; exact hst⟩
    | none =>
      cases stack with
      | cons top rest =>
        by_cases htop : c = top
        · subst htop
          have hun : sepIndexesAux parens sep (c :: rest) (c :: cs) i0
              = sepIndexesAux parens sep rest cs (i0 + 1) := by
            simp [sepIndexesAux, hc]
          have htake : ∀ k : Nat,
              stackAfter parens (c :: rest) ((c :: cs).take (k + 1))
                = stackAfter parens rest (cs.take k) := by
            intro k; simp [stackAfter, hc]
          rw [hun, ih rest (i0 + 1) j]
          constructor
          · rintro ⟨k, hk, hj, hch, hst⟩
            refine Or.inr ⟨k, hk, by omega, by simpa [hk0] using hch, ?_⟩
            rw [htake]; exact hst
          · rintro (⟨_, _, hst⟩ | ⟨k, hk, hj, hch, hst⟩)
            · simp [stackAfter] at hst
            · refine ⟨k, hk, by omega, by simpa [hk0] using hch, ?_⟩
              rw [htake] at hst; exact hst
        · have hun : sepIndexesAux parens sep (top :: rest) (c :: cs) i0
              = sepIndexesAux parens sep (top :: rest) cs (i0 + 1) := by
            simp [sepIndexesAux, hc, htop]
          have htake : ∀ k : Nat,
              stackAfter parens (top :: rest) ((c :: cs).take (k + 1))
                = stackAfter parens (top :: rest) (cs.take k) := by
            intro k; simp [stackAfter, hc, htop]
          rw [hun, ih (top :: rest) (i0 + 1) j]
          constructor
          · rintro ⟨k, hk, hj, hch, hst⟩
            exact Or.inr ⟨k, hk, by omega, by simpa [hk0] using hch,
              by rw [htake]; exact hst⟩
          · rintro (⟨_, _, hst⟩ | ⟨k, hk, hj, hch, hst⟩)
            · simp [stackAfter] at hst
            · exact ⟨k, hk, by omega, by simpa [hk0] using hch,
                by rw [htake] at hst; exact hst⟩
      | nil =>
        have htake : ∀ k : Nat,
            stackAfter parens ([] : List Char) ((c :: cs).take (k + 1))
              = stackAfter parens [] (cs.take k) := by
          intro k; simp [stackAfter, hc]
        by_cases hcs : c = sep
        · subst hcs
          have hun : sepIndexesAux parens c ([] : List Char) (c :: cs) i0
              = i0 :: sepIndexesAux parens c [] cs (i0 + 1) := by
            simp [sepIndexesAux, hc]
          rw [hun]
          constructor
          · intro hmem
            rcases List.mem_cons.mp hmem with hj | hmem
            · exact Or.inl ⟨by omega, rfl, by simp [stackAfter]⟩
            · rcases (ih [] (i0 + 1) j).mp hmem with ⟨k, hk, hj, hch, hst⟩
              exact Or.inr ⟨k, hk, by omega, by simpa [hk0] using hch,
                by rw [htake]; exact hst⟩
          · rintro (⟨hj, _, _⟩ | ⟨k, hk, hj, hch, hst⟩)
            · exact List.mem_cons.mpr (Or.inl (by omega))
            · refine List.mem_cons.mpr (Or.inr ?_)
              exact (ih [] (i0 + 1) j).mpr ⟨k, hk, by omega, by simpa [hk0] using hch,
                by rw [htake] at hst; exact hst⟩
        · have hun : sepIndexesAux parens sep ([] : List Char) (c :: cs) i0
              = sepIndexesAux parens sep [] cs (i0 + 1) := by
            simp [sepIndexesAux, hc, hcs]
          rw [hun, ih [] (i0 + 1) j]
          constructor
          · rintro ⟨k, hk, hj, hch, hst⟩
            exact Or.inr ⟨k, hk, by omega, by simpa [hk0] using hch,
              by rw [htake]; exact hst⟩
          · rintro (⟨_, hch, _⟩ | ⟨k, hk, hj, hch, hst⟩)
            · exact absurd hch hcs
            · exact ⟨k, hk, by omega, by simpa [hk0] using hch,
                by rw [htake] at hst; exact hst⟩

/-! ### Grammar cascade (C1) -/

/-- Rules built from an anchored `.match` always report span start 0. -/
theorem anchored_of_matchRule (P : Pat) (g : Nat → List (String × List Char) → ParsedMsgCore)
    (info : List Char) (m : ParsedMsgCore) (s e : Nat)
    (h : (match patMatch P info with
          | none => (none : RuleResult)
          | some (len, caps) => some (g len caps, 0, len)) = some (m, s, e)) : s = 0 := by
  cases hm : patMatch P info <;> rw [hm] at h
  · exact Option.noConfusion h
  · simp only [Option.some.injEq, Prod.mk.injEq] at h
    exact h.2.1.symm

/-- C1 counterexample: on the message `"xx selbst."` no rule's pattern
matches at the start of the text — all fifteen anchored checks fail — yet the
cascade result is `DoIndependently` (with `before = "xx "`), not
`FailedToParse`: the rules from `exam` on are applied with `.search` and may
match anywhere in the text. -/
theorem cascade_search_rules_not_anchored :
    _parse_message (toL "xx selbst.") sampleLesson PlanType.forms =
        ⟨.doIndependently, "xx ", "", ["selbst."]⟩ ∧
      (ParsedMsgCore.doIndependently ≠ ParsedMsgCore.failedToParse) ∧
      ([substitution_pat, moved_from_pat, instead_of_pat, held_at_pat, moved_to_pat,
          moved_to_date_pat, cancelled_pat, exam_pat, do_where_pat,
          individual_revision_pat, whole_form_pat, independent_pat,
          tasks_in_lernsax_pat, tasks_were_given_pat].all
        (fun p => (patMatch p (toL "xx selbst.")).isNone)) = true := by
  refine ⟨by decide, by decide, by decide⟩

/-- When no rule of the list produces a result, first-match semantics falls
back to `FailedToParse` with no span. -/
theorem applyFirstRule_none_failed :
    ∀ (rules : List (List Char → Lesson → RuleResult)) (info : List Char) (lesson : Lesson),
      (applyFirstRule rules info lesson).2 = none →
      (applyFirstRule rules info lesson).1 = ParsedMsgCore.failedToParse := by
  intro rules
  induction rules with
  | nil => intro info lesson _; rfl
  | cons r rs ih =>
    intro info lesson h
    unfold applyFirstRule at h ⊢
    cases hr : r info lesson with
    | none =>
      rw [hr] at h
      exact ih info lesson h
    | some v =>
      obtain ⟨m, s, e⟩ := v
      rw [hr] at h
      simp at h

/-- C1 (amended): the cascade equals first-match semantics over the ordered
rule list `[InsteadOfCourse, MovedFrom(same-day), MovedFrom("statt"),
MovedTo("gehalten am"), MovedTo(same-day), MovedTo(dated), Cancelled, Exam,
DoAtLocation, IndividualRevision, WholeForm, DoIndependently, TasksInLernsax,
TasksWereGiven]`; when no rule produces a match the variant is
`FailedToParse` and `_parse_message` preserves the whole stripped and
slash-normalized text as `original_messages` with empty `before`/`after`;
the first seven rules are anchored at the start of the text (span start 0),
while the remaining rules match anywhere (`.search`). -/
theorem cascade_is_first_match (info : List Char) (lesson : Lesson) :
    _parse_form_plan_message info lesson = applyFirstRule ruleList info lesson ∧
      ((_parse_form_plan_message info lesson).2 = none →
        (_parse_form_plan_message info lesson).1 = ParsedMsgCore.failedToParse) ∧
      (∀ info0 : List Char,
        (_parse_form_plan_message (slashFix (stripChars info0)) lesson).2 = none →
        _parse_message info0 lesson PlanType.forms =
          ⟨(_parse_form_plan_message (slashFix (stripChars info0)) lesson).1, "", "",
            [String.mk (slashFix (stripChars info0))]⟩) ∧
      (∀ m s e, ruleSubstitution info lesson = some (m, s, e) → s = 0) ∧
      (∀ m s e, ruleMovedFrom info lesson = some (m, s, e) → s = 0) ∧
      (∀ m s e, ruleInsteadOf info lesson = some (m, s, e) → s = 0) ∧
      (∀ m s e, ruleHeldAt info lesson = some (m, s, e) → s = 0) ∧
      (∀ m s e, ruleMovedTo info lesson = some (m, s, e) → s = 0) ∧
      (∀ m s e, ruleMovedToDate info lesson = some (m, s, e) → s = 0) ∧
      (∀ m s e, ruleCancelled info lesson = some (m, s, e) → s = 0) := by
  refine ⟨rfl, ?_, ?_, ?_, ?_, ?_, ?_, ?_, ?_, ?_⟩
  · intro h
    exact applyFirstRule_none_failed ruleList info lesson h
  · intro info0 h
    unfold _parse_message
    simp only [eq_self_iff_true, if_true]
    rw [h]
  all_goals
    intro m s e h
    exact anchored_of_matchRule _ _ info m s e h

/-- C1 witness: first-match semantics and anchoring evaluated on the spec's
Example 2 input. -/
theorem cascade_is_first_match_witness :
    _parse_form_plan_message (toL "MA Frau Musterfrau verlegt nach St.3") sampleLesson
        = applyFirstRule ruleList (toL "MA Frau Musterfrau verlegt nach St.3")
            sampleLesson ∧
      (ruleMovedTo (toL "MA Frau Musterfrau verlegt nach St.3") sampleLesson).map
          (fun r => r.2.1) = some 0 := by
  constructor
  · exact (cascade_is_first_match (toL "MA Frau Musterfrau verlegt nach St.3")
      sampleLesson).1
  · cases hr : ruleMovedTo (toL "MA Frau Musterfrau verlegt nach St.3") sampleLesson with
    | none => exact absurd hr (by decide)
    | some r =>
      have := (cascade_is_first_match (toL "MA Frau Musterfrau verlegt nach St.3")
        sampleLesson).2.2.2.2.2.2.2.1 r.1 r.2.1 r.2.2 (by rw [hr])
      simp [this]

/-! ### Period ranges (C4) -/

/-- C4 counterexample: the same-day `MovedFrom` rule does not expand period
ranges — `"verlegt von St.3-5"` parses to `MovedFrom` with `periods = {3}`
(only `period_begin`), not `{3, 4, 5}`. -/
theorem movedFrom_range_collapses :
    _parse_message (toL "verlegt von St.3-5") sampleLesson PlanType.forms =
        ⟨.movedFrom ⟨PlanType.forms, {"10/1"}, {3}, none⟩, "", "",
          ["verlegt von St.3-5"]⟩ ∧
      ({3} : Finset Nat) ≠ {3, 4, 5} := by
  exact ⟨by decide, by decide⟩

/-- C4 (amended): `parse_periods` expands a captured range `a-b` to the full
`Finset.Icc a b` and a bare `a` to `{a}`; the dated `MovedTo` and cross-day
`MovedFrom` ("statt") rules store the expanded set, while the same-day
`MovedFrom` rule (`"verlegt von St.a-b"`) stores only the singleton of the
range's first period. -/
theorem period_range_expansion (c1 c2 : Char)
    (h1 : c1 ∈ toL "0123456789") (h2 : c2 ∈ toL "0123456789") :
    parse_periods [c1, '-', c2] = Finset.Icc (digitsToNat [c1]) (digitsToNat [c2]) ∧
      parse_periods [c1] = {digitsToNat [c1]} ∧
      (_parse_message (toL "GE Frau Musterfrau verlegt nach Do (08.06.) St.3-4")
          sampleLesson PlanType.forms).core =
        .movedTo ⟨⟨"GE", PlanType.forms, {"10/1"}, none, some {"Frau Musterfrau"}⟩,
          some ⟨2023, 6, 8⟩, {3, 4}⟩ ∧
      (_parse_message (toL "statt Mi (07.06.) St.1-2") sampleLesson PlanType.forms).core =
        .movedFrom ⟨PlanType.forms, {"10/1"}, {1, 2}, some ⟨2023, 6, 7⟩⟩ ∧
      (_parse_message (toL "verlegt von St.3-5") sampleLesson PlanType.forms).core =
        .movedFrom ⟨PlanType.forms, {"10/1"}, {3}, none⟩ := by
  refine ⟨?_, ?_, by decide, by decide, by decide⟩
  · fin_cases h1 <;> fin_cases h2 <;> decide
  · fin_cases h1 <;> decide

/-- C4 witness: the expansion applied at the digits `3` and `5`. -/
theorem period_range_expansion_witness :
    parse_periods (toL "3-5") = Finset.Icc (digitsToNat (toL "3")) (digitsToNat (toL "5")) ∧
      parse_periods (toL "3") = {digitsToNat (toL "3")} :=
  ⟨(period_range_expansion '3' '5' (by decide) (by decide)).1,
    (period_range_expansion '3' '5' (by decide) (by decide)).2.1⟩

/-! ### Fuzzy linker (C2) -/

/-- C2: the fuzzy room pass is NOT a lossless partition of its input.  On
`"bitte Raum 1302 nutzen"` with room set `{"1302"}` the pass does link exactly
the substring `"1302"`, but the trailing `" nutzen"` is dropped: after the
accepted match at position 11 with absolute end 15 the source advances the
cursor by `i += match.end()` (to 26), not to the match end, so concatenating
the emitted segment texts yields `"bitte Raum 1302"`, not the input. -/
theorem add_fuzzy_room_links_not_partition :
    segsText (add_fuzzy_room_links (("bitte Raum 1302 nutzen").toList)
        [("1302").toList] ⟨2023, 6, 5⟩) = "bitte Raum 1302" ∧
      ("bitte Raum 1302" : String) ≠ "bitte Raum 1302 nutzen" ∧
      (add_fuzzy_room_links (("bitte Raum 1302 nutzen").toList)
          [("1302").toList] ⟨2023, 6, 5⟩).filter (fun seg => seg.link.isSome)
        = [⟨"1302", some ⟨PlanType.rooms, ["1302"], some ⟨2023, 6, 5⟩, none⟩⟩] := by
  refine ⟨by decide, by decide, by decide⟩

/-- C3 counterexample: with `sep = '('` (an opening bracket of the mapping) the
claimed "split point iff empty stack" equivalence fails: position 0 of `"("`
holds the separator with an empty bracket stack, yet it is not a split point
(the result is the single fragment `"("`). -/
theorem splitParensAware_sep_open_bracket_not_split :
    split_parens_aware ['('] '(' defaultParens = [['(']] ∧
      sepIndexes defaultParens '(' ['('] = [] ∧
      stackAt defaultParens ['('] 0 = [] ∧
      (['(']).getD 0 ' ' = '(' := by
  refine ⟨rfl, rfl, rfl, rfl⟩

/-- C3 (amended): joining the fragments of `split_parens_aware` with the
separator reproduces the input exactly (also on unbalanced bracket input, where
the function still returns a result); and, provided the separator is not an
opening bracket of the mapping, a separator occurrence is a split point iff
the bracket stack is empty at that position.  The comma inside brackets in
`"Text (a, b) weiter"` hence yields a single fragment. -/
theorem split_parens_aware_join_and_split_points (s : List Char) (sep : Char)
    (parens : List (Char × Char)) :
    joinSep sep (split_parens_aware s sep parens) = s ∧
      (parens.lookup sep = none →
        ∀ i, i < s.length →
          (i ∈ sepIndexes parens sep s ↔ s.getD i ' ' = sep ∧ stackAt parens s i = [])) ∧
      split_parens_aware (("Text (a, b) weiter").toList) ',' defaultParens
        = [("Text (a, b) weiter").toList] := by
  refine ⟨?_, ?_, by rfl⟩
  · have := joinSep_piecesFrom_sepIndexesAux parens sep s s [] 0 0 (by simp) (Nat.le_refl 0)
    simpa [split_parens_aware, sepIndexes] using this
  · intro hsep i hi
    rw [sepIndexes, mem_sepIndexesAux parens sep hsep s [] 0 i]
    constructor
    · rintro ⟨k, hk, hik, hch, hst⟩
      have : i = k := by omega
      subst this
      exact ⟨hch, hst⟩
    · rintro ⟨hch, hst⟩
      exact ⟨i, hi, by omega, hch, hst⟩

/-- C3 witness: the amended theorem applied at the concrete input
`"a,(b,c)"` with separator `','`: the join round-trips, position 1 is a split
point, and the bracketed comma at position 4 is not. -/
theorem split_parens_aware_join_witness :
    joinSep ',' (split_parens_aware (("a,(b,c)").toList) ',' defaultParens)
        = ("a,(b,c)").toList ∧
      (1 ∈ sepIndexes defaultParens ',' (("a,(b,c)").toList) ↔
        (("a,(b,c)").toList).getD 1 ' ' = ',' ∧
          stackAt defaultParens (("a,(b,c)").toList) 1 = []) ∧
      (4 ∈ sepIndexes defaultParens ',' (("a,(b,c)").toList) ↔
        (("a,(b,c)").toList).getD 4 ' ' = ',' ∧
          stackAt defaultParens (("a,(b,c)").toList) 4 = []) := by
  refine ⟨(split_parens_aware_join_and_split_points (("a,(b,c)").toList) ',' defaultParens).1,
    ?_, ?_⟩
  · exact (split_parens_aware_join_and_split_points (("a,(b,c)").toList) ','
      defaultParens).2.1 (by rfl) 1 (by decide)
  · exact (split_parens_aware_join_and_split_points (("a,(b,c)").toList) ','
      defaultParens).2.1 (by rfl) 4 (by decide)

/-! ### MovedTo rendering (C5) -/

/-- C5: `MovedTo` rendering against a lesson date.  `date = None`: course
segment, unlinked `" verlegt nach "`, period label linked at the lesson date;
`date < lesson_date`: `" gehalten am "` with the weekday/date/label segment
linked at the message's own date; `date ≥ lesson_date`: `" verlegt nach "`
with the link carrying the message's own date. -/
theorem movedTo_rendering_cases (env : RenderEnv) (f : MovedToFields) (lesson_date : Date) :
    (f.date = none →
      MovedTo_to_text_segments f lesson_date env =
        _course_text_segments f.toCourseFields env lesson_date none ++
          [⟨" verlegt nach ", none⟩,
           ⟨env.get_label_of_periods f.periods,
             some ⟨f.plan_type, sortedStrings f.plan_value, some lesson_date,
               some (sortedNats f.periods)⟩⟩]) ∧
    (∀ d, f.date = some d → Date.lt d lesson_date = true →
      MovedTo_to_text_segments f lesson_date env =
        _course_text_segments f.toCourseFields env d (some (sortedNats f.periods)) ++
          [⟨" gehalten am ", none⟩,
           ⟨de_weekday_to_str (env.weekday d) ++ " (" ++ strftimeDMY d ++ ") "
               ++ env.get_label_of_periods f.periods,
             some ⟨f.plan_type, sortedStrings f.plan_value, some d,
               some (sortedNats f.periods)⟩⟩]) ∧
    (∀ d, f.date = some d → Date.lt d lesson_date = false →
      MovedTo_to_text_segments f lesson_date env =
        _course_text_segments f.toCourseFields env d (some (sortedNats f.periods)) ++
          [⟨" verlegt nach ", none⟩,
           ⟨de_weekday_to_str (env.weekday d) ++ " (" ++ strftimeDMY d ++ ") "
               ++ env.get_label_of_periods f.periods,
             some ⟨f.plan_type, sortedStrings f.plan_value, some d,
               some (sortedNats f.periods)⟩⟩]) := by
  refine ⟨?_, ?_, ?_⟩
  · intro h
    simp [MovedTo_to_text_segments, h]
  · intro d hd hlt
    simp [MovedTo_to_text_segments, hd, hlt]
  · intro d hd hlt
    simp [MovedTo_to_text_segments, hd, hlt]

/-- C5 witness: the `" gehalten am "` case evaluated at the dated sample
message (date 2023-06-05, lesson date 2023-06-08). -/
theorem movedTo_rendering_witness :
    sampleMovedToDated.date = some ⟨2023, 6, 5⟩ ∧
      Date.lt ⟨2023, 6, 5⟩ ⟨2023, 6, 8⟩ = true ∧
      MovedTo_to_text_segments sampleMovedToDated ⟨2023, 6, 8⟩ sampleEnv =
        _course_text_segments sampleMovedToDated.toCourseFields sampleEnv ⟨2023, 6, 5⟩
            (some (sortedNats sampleMovedToDated.periods)) ++
          [⟨" gehalten am ", none⟩,
           ⟨de_weekday_to_str (sampleEnv.weekday ⟨2023, 6, 5⟩) ++ " (" ++ strftimeDMY ⟨2023, 6, 5⟩
               ++ ") " ++ sampleEnv.get_label_of_periods sampleMovedToDated.periods,
             some ⟨sampleMovedToDated.plan_type, sortedStrings sampleMovedToDated.plan_value,
               some ⟨2023, 6, 5⟩, some (sortedNats sampleMovedToDated.periods)⟩⟩] :=
  ⟨rfl, by decide,
    (movedTo_rendering_cases sampleEnv sampleMovedToDated ⟨2023, 6, 8⟩).2.1 ⟨2023, 6, 5⟩ rfl
      (by decide)⟩

/-! ### Grouping (C6) -/

theorem movedFrom_groupable_iff (a b : ParsedInfoMsg) (fa fb : MovedFromFields)
    (ha : a.core = .movedFrom fa) (hb : b.core = .movedFrom fb) :
    (a.is_groupable b = some true ↔
      (a.before = b.before ∧ a.after = b.after ∧ fa.date = fb.date ∧
        fa.plan_type = fb.plan_type)) := by
  simp only [ParsedInfoMsg.is_groupable, ha, hb, MovedFrom.is_groupable]
  simp [Bool.and_eq_true, decide_eq_true_eq, and_assoc]

theorem movedTo_groupable_iff (a b : ParsedInfoMsg) (fa fb : MovedToFields)
    (ha : a.core = .movedTo fa) (hb : b.core = .movedTo fb) :
    (a.is_groupable b = some true ↔
      (fa.course = fb.course ∧
        fa.toCourseFields.original_other_info_value
          = fb.toCourseFields.original_other_info_value ∧
        fa.date = fb.date ∧ fa.plan_type = fb.plan_type)) := by
  simp only [ParsedInfoMsg.is_groupable, ha, hb, MovedTo.is_groupable]
  simp [Bool.and_eq_true, decide_eq_true_eq, and_assoc]

theorem is_groupable_undefined_elsewhere (a b : ParsedInfoMsg)
    (h1 : ∀ f, a.core ≠ .movedFrom f) (h2 : ∀ f, a.core ≠ .movedTo f) :
    a.is_groupable b = none := by
  cases ca : a.core
  all_goals first
    | exact absurd ca (h1 _)
    | exact absurd ca (h2 _)
    | simp [ParsedInfoMsg.is_groupable, ca]

theorem is_groupable_some_inv (a b : ParsedInfoMsg) (r : Bool)
    (h : a.is_groupable b = some r) :
    (∃ fa fb, a.core = .movedFrom fa ∧ b.core = .movedFrom fb) ∨
      (∃ fa fb, a.core = .movedTo fa ∧ b.core = .movedTo fb) := by
  cases ca : a.core <;> cases cb : b.core <;>
    simp only [ParsedInfoMsg.is_groupable, ca, cb] at h <;>
    first
      | exact Or.inl ⟨_, _, rfl, rfl⟩
      | exact Or.inr ⟨_, _, rfl, rfl⟩
      | cases h

theorem is_groupable_refl (a : ParsedInfoMsg)
    (h : (∃ f, a.core = .movedFrom f) ∨ (∃ f, a.core = .movedTo f)) :
    a.is_groupable a = some true := by
  rcases h with ⟨f, hf⟩ | ⟨f, hf⟩ <;>
    simp [ParsedInfoMsg.is_groupable, hf, MovedFrom.is_groupable, MovedTo.is_groupable]

theorem is_groupable_symm (a b : ParsedInfoMsg) (h : a.is_groupable b = some true) :
    b.is_groupable a = some true := by
  rcases is_groupable_some_inv a b true h with ⟨fa, fb, ca, cb⟩ | ⟨fa, fb, ca, cb⟩
  · have h' := (movedFrom_groupable_iff a b fa fb ca cb).mp h
    exact (movedFrom_groupable_iff b a fb fa cb ca).mpr
      ⟨h'.1.symm, h'.2.1.symm, h'.2.2.1.symm, h'.2.2.2.symm⟩
  · have h' := (movedTo_groupable_iff a b fa fb ca cb).mp h
    exact (movedTo_groupable_iff b a fb fa cb ca).mpr
      ⟨h'.1.symm, h'.2.1.symm, h'.2.2.1.symm, h'.2.2.2.symm⟩

theorem is_groupable_trans (a b c : ParsedInfoMsg) (hab : a.is_groupable b = some true)
    (hbc : b.is_groupable c = some true) : a.is_groupable c = some true := by
  rcases is_groupable_some_inv a b true hab with ⟨fa, fb, ca, cb⟩ | ⟨fa, fb, ca, cb⟩ <;>
    rcases is_groupable_some_inv b c true hbc with ⟨fb', fc, cb', cc⟩ | ⟨fb', fc, cb', cc⟩
  · rw [cb] at cb'
    cases cb'
    have h1 := (movedFrom_groupable_iff a b fa fb ca cb).mp hab
    have h2 := (movedFrom_groupable_iff b c fb fc cb cc).mp hbc
    exact (movedFrom_groupable_iff a c fa fc ca cc).mpr
      ⟨h1.1.trans h2.1, h1.2.1.trans h2.2.1, h1.2.2.1.trans h2.2.2.1,
        h1.2.2.2.trans h2.2.2.2⟩
  · rw [cb] at cb'; cases cb'
  · rw [cb] at cb'; cases cb'
  · rw [cb] at cb'
    cases cb'
    have h1 := (movedTo_groupable_iff a b fa fb ca cb).mp hab
    have h2 := (movedTo_groupable_iff b c fb fc cb cc).mp hbc
    exact (movedTo_groupable_iff a c fa fc ca cc).mpr
      ⟨h1.1.trans h2.1, h1.2.1.trans h2.2.1, h1.2.2.1.trans h2.2.2.1,
        h1.2.2.2.trans h2.2.2.2⟩

/-- C6 counterexample: two `MovedTo` messages that differ in `before`
(`"Xx "` vs `""`) are groupable per the code — `MovedTo.is_groupable` never
reads `before`/`after` — refuting the claim that grouping requires equal
`before` and `after` fields. -/
theorem movedTo_groupable_ignores_before :
    ParsedInfoMsg.is_groupable
        ⟨.movedTo sampleMovedToNone, "Xx ", "", ["m"]⟩
        ⟨.movedTo sampleMovedToNone, "", "", ["m"]⟩ = some true ∧
      ("Xx " : String) ≠ "" := by
  constructor
  · decide
  · decide

/-- C6 (amended): only `MovedFrom` and `MovedTo` define `is_groupable`.
`MovedFrom`'s holds iff `before`, `after`, `date` and entity kind agree;
`MovedTo`'s holds iff `course`, the original other-info value (the raw
`_teachers` set when truthy, else the resolved value), `date` and entity kind
agree — independently of `before`/`after`; every other variant lacks the
method.  On the defined variants the relation is reflexive, symmetric and
transitive. -/
theorem is_groupable_spec :
    (∀ (a b : ParsedInfoMsg) (fa fb : MovedFromFields),
      a.core = .movedFrom fa → b.core = .movedFrom fb →
      (a.is_groupable b = some true ↔
        (a.before = b.before ∧ a.after = b.after ∧ fa.date = fb.date ∧
          fa.plan_type = fb.plan_type))) ∧
    (∀ (a b : ParsedInfoMsg) (fa fb : MovedToFields),
      a.core = .movedTo fa → b.core = .movedTo fb →
      (a.is_groupable b = some true ↔
        (fa.course = fb.course ∧
          fa.toCourseFields.original_other_info_value
            = fb.toCourseFields.original_other_info_value ∧
          fa.date = fb.date ∧ fa.plan_type = fb.plan_type))) ∧
    (∀ a b : ParsedInfoMsg, (∀ f, a.core ≠ .movedFrom f) → (∀ f, a.core ≠ .movedTo f) →
      a.is_groupable b = none) ∧
    (∀ a : ParsedInfoMsg, (∃ f, a.core = .movedFrom f) ∨ (∃ f, a.core = .movedTo f) →
      a.is_groupable a = some true) ∧
    (∀ a b : ParsedInfoMsg, a.is_groupable b = some true → b.is_groupable a = some true) ∧
    (∀ a b c : ParsedInfoMsg, a.is_groupable b = some true →
      b.is_groupable c = some true → a.is_groupable c = some true) :=
  ⟨movedFrom_groupable_iff, movedTo_groupable_iff, is_groupable_undefined_elsewhere,
    is_groupable_refl, is_groupable_symm, is_groupable_trans⟩

/-- C6 witness: the amended characterization applied to concrete `MovedTo`
messages that share all compared fields but differ in `before`. -/
theorem is_groupable_spec_witness :
    ParsedInfoMsg.is_groupable
        ⟨.movedTo sampleMovedToNone, "a", "", ["m"]⟩
        ⟨.movedTo sampleMovedToNone, "b", "", ["m"]⟩ = some true ∧
      ParsedInfoMsg.is_groupable ⟨.cancelled sampleCourseFields {3}, "", "", ["m"]⟩
        ⟨.cancelled sampleCourseFields {3}, "", "", ["m"]⟩ = none :=
  ⟨(is_groupable_spec.2.1 ⟨.movedTo sampleMovedToNone, "a", "", ["m"]⟩
      ⟨.movedTo sampleMovedToNone, "b", "", ["m"]⟩ sampleMovedToNone sampleMovedToNone
      rfl rfl).mpr ⟨rfl, rfl, rfl, rfl⟩,
    is_groupable_spec.2.2.1 ⟨.cancelled sampleCourseFields {3}, "", "", ["m"]⟩
      ⟨.cancelled sampleCourseFields {3}, "", "", ["m"]⟩
      (fun f h => by cases h) (fun f h => by cases h)⟩

/-! ### Canonical sort key (C7) -/

theorem map_pyInsert {α β : Type} (F : α → β) (ltA : α → α → Bool) (ltB : β → β → Bool)
    (h : ∀ x y, ltA x y = ltB (F x) (F y)) (x : α) :
    ∀ l : List α, (pyInsert ltA x l).map F = pyInsert ltB (F x) (l.map F) := by
  intro l
  induction l with
  | nil => rfl
  | cons y ys ih =>
    simp only [pyInsert, List.map_cons, ← h y x]
    by_cases hyx : ltA y x = true
    · simp [hyx, ih]
    · simp [hyx]

theorem map_pySorted {α β : Type} (F : α → β) (ltA : α → α → Bool) (ltB : β → β → Bool)
    (h : ∀ x y, ltA x y = ltB (F x) (F y)) :
    ∀ l : List α, (pySorted ltA l).map F = pySorted ltB (l.map F) := by
  intro l
  induction l with
  | nil => rfl
  | cons x xs ih =>
    simp only [pySorted, List.map_cons]
    rw [map_pyInsert F ltA ltB h x, ih]

theorem lesson_group_sort_key_eq (info : ParsedLessonInfo) :
    info.lesson_group_sort_key =
      pySorted (listLtB (listLtB strLtB))
        ((info.paragraphs.map parKey).map (pySorted (listLtB strLtB))) := by
  have inner : ∀ p : LessonInfoParagraph,
      parKey (LessonInfoParagraph.mk
          (pySorted (fun a b => listLtB strLtB (msgKey a) (msgKey b)) p.messages) p.index)
        = pySorted (listLtB strLtB) (parKey p) := fun p =>
    map_pySorted msgKey (fun a b => listLtB strLtB (msgKey a) (msgKey b)) (listLtB strLtB)
      (fun _ _ => rfl) p.messages
  unfold ParsedLessonInfo.lesson_group_sort_key ParsedLessonInfo.sorted_canonical
  rw [map_pySorted parKey
    (fun a b => listLtB (listLtB strLtB) (parKey a) (parKey b))
    (listLtB (listLtB strLtB)) (fun _ _ => rfl)]
  rw [List.map_map, List.map_map]
  exact congrArg (pySorted (listLtB (listLtB strLtB)))
    (List.map_congr_left (fun p _ => inner p))

/-- C7: the canonical grouping key and the canonically sorted ordering depend
only on the `original_messages` carried by the paragraphs' messages — two
infos whose messages agree pairwise on `original_messages` get equal
`lesson_group_sort_key` and equal canonical orderings, whatever their
resolved/fuzzy data (`other_info_value`, teacher sets, …). -/
theorem lesson_group_sort_key_original_only (a b : ParsedLessonInfo)
    (h : a.paragraphs.map parKey = b.paragraphs.map parKey) :
    a.lesson_group_sort_key = b.lesson_group_sort_key ∧
      a.sorted_canonical.paragraphs.map parKey
        = b.sorted_canonical.paragraphs.map parKey := by
  have key : a.lesson_group_sort_key = b.lesson_group_sort_key := by
    rw [lesson_group_sort_key_eq a, lesson_group_sort_key_eq b, h]
  exact ⟨key, key⟩

/-- C7 witness: two one-message infos with identical `original_messages` but
different resolved teacher abbreviations (`{"MUS"}` vs `{"XYZ"}`) compare
equal by the canonical grouping key. -/
theorem lesson_group_sort_key_witness :
    wInfoA.paragraphs.map parKey = wInfoB.paragraphs.map parKey ∧
      wInfoA.lesson_group_sort_key = wInfoB.lesson_group_sort_key :=
  ⟨rfl, (lesson_group_sort_key_original_only wInfoA wInfoB rfl).1⟩

/-! ### Teacher resolution (C8) -/

theorem hasTeachersAttr_false_teachersAttr (c : ParsedMsgCore)
    (h : c.hasTeachersAttr = false) : c.teachersAttr = none := by
  cases c <;> simp_all [ParsedMsgCore.hasTeachersAttr, ParsedMsgCore.teachersAttr]

theorem resolveMsgE_ok (query : String → Option String) (m : LessonInfoMessage)
    (h : m.parsed.core.hasTeachersAttr = true → m.parsed.core.teachersAttr ≠ none) :
    resolveMsgE query m = .ok (resolveMsgPure query m) := by
  by_cases hA : m.parsed.core.hasTeachersAttr = true
  · cases hT : m.parsed.core.teachersAttr with
    | none => exact absurd hT (h hA)
    | some ts => simp [resolveMsgE, resolveMsgPure, hA, hT]
  · have hN : m.parsed.core.teachersAttr = none :=
      hasTeachersAttr_false_teachersAttr _ (by simpa using hA)
    simp [resolveMsgE, resolveMsgPure, hA, hN]

theorem mapExcept_ok {α β : Type} (g : α → Except PyError β) (f : α → β) :
    ∀ l : List α, (∀ x ∈ l, g x = .ok (f x)) → mapExcept g l = .ok (l.map f) := by
  intro l
  induction l with
  | nil => intro _; rfl
  | cons x xs ih =>
    intro h
    have hx := h x (by simp)
    have hxs := ih (fun y hy => h y (by simp [hy]))
    simp [mapExcept, hx, hxs]

/-- C8: with every course-bearing message carrying an actual `_teachers` set,
bulk resolution succeeds (no exception escapes) and transforms each message
independently: `other_info_value` becomes the set of resolved abbreviations
when every lookup succeeds and `None` when some lookup raises; rendering an
unresolved message emits the raw teacher reference as an unlinked segment. -/
theorem resolve_teachers_contract (query : String → Option String) (info : ParsedLessonInfo)
    (h : ∀ p ∈ info.paragraphs, ∀ m ∈ p.messages,
      m.parsed.core.hasTeachersAttr = true → m.parsed.core.teachersAttr ≠ none) :
    info.resolve_teachers query =
        .ok ⟨info.paragraphs.map (fun p =>
          LessonInfoParagraph.mk (p.messages.map (resolveMsgPure query)) p.index)⟩ ∧
      (∀ ts : Finset String, (∀ t ∈ ts, (query t).isSome) →
        resolveTeacherSet query ts = some (ts.image (fun t => (query t).getD ""))) ∧
      (∀ ts : Finset String, ¬(∀ t ∈ ts, (query t).isSome) →
        resolveTeacherSet query ts = none) ∧
      (∀ (env : RenderEnv) (f : CourseFields) (d : Date) (ps : Option (List Nat)) (t : String),
        f.plan_type = PlanType.forms → f.other_info_value = none → f._teachers = some {t} →
        _course_text_segments f env d ps = [⟨f.course ++ " ", none⟩, ⟨t, none⟩]) := by
  refine ⟨?_, ?_, ?_, ?_⟩
  · unfold ParsedLessonInfo.resolve_teachers
    rw [mapExcept_ok _
      (fun p => LessonInfoParagraph.mk (p.messages.map (resolveMsgPure query)) p.index)
      info.paragraphs
      (fun p hp => by
        rw [mapExcept_ok (resolveMsgE query) (resolveMsgPure query) p.messages
          (fun m hm => resolveMsgE_ok query m (h p hp m hm))])]
  · intro ts hts
    unfold resolveTeacherSet
    rw [if_pos hts]
  · intro ts hts
    unfold resolveTeacherSet
    rw [if_neg hts]
  · intro env f d ps t hf ho ht
    have hone : String.intercalate ", " [t] = t := rfl
    simp [_course_text_segments, hf, ho, ht, get_other_info_type_of_plan_type,
      CourseFields.original_other_info_value, optSetTruthy, joinSet, sortedStrings, hone]

/-- C8 witness: the contract applied to a two-message info where the first
teacher resolves (`other_info_value = {"MUS"}`) and the second raises
(`other_info_value = None`), plus the unlinked raw rendering of the
unresolved message. -/
theorem resolve_teachers_witness :
    wResolveInfo.resolve_teachers wQuery =
        .ok ⟨wResolveInfo.paragraphs.map (fun p =>
          LessonInfoParagraph.mk (p.messages.map (resolveMsgPure wQuery)) p.index)⟩ ∧
      _course_text_segments ⟨"SPO", PlanType.forms, {"10/1"}, none, some {"Frau Unbekannt"}⟩
          sampleEnv ⟨2023, 6, 8⟩ none
        = [⟨"SPO ", none⟩, ⟨"Frau Unbekannt", none⟩] :=
  ⟨(resolve_teachers_contract wQuery wResolveInfo (by decide)).1,
    (resolve_teachers_contract wQuery wResolveInfo (by decide)).2.2.2 sampleEnv
      ⟨"SPO", PlanType.forms, {"10/1"}, none, some {"Frau Unbekannt"}⟩ ⟨2023, 6, 8⟩ none
      "Frau Unbekannt" rfl rfl rfl⟩

/-! ### Teacher inference (C9) -/

theorem inferFromCandidates_iff (lesson : Lesson) (classes : List (String × SchoolClass))
    (course surname : String) (t : Teacher) :
    inferFromCandidates lesson classes course surname = some t ↔
      ((splitWs surname).length ≠ 1 ∧
        (distinctTeachers (narrowClasses lesson classes course surname)).length = 1 ∧
        ∃ x rest, narrowClasses lesson classes course surname = x :: rest ∧
          (x.2.teacher.toList.any (fun c => c.isAlpha)) = true ∧
          t = ⟨x.2.teacher, some surname, lesson._lesson_date, lesson._lesson_date⟩) := by
  unfold inferFromCandidates
  by_cases h1 : (splitWs surname).length = 1
  · simp [h1]
  · rw [if_neg h1]
    by_cases h2 : (distinctTeachers (narrowClasses lesson classes course surname)).length ≠ 1
    · simp [h2]
    · push_neg at h2
      rw [if_neg (by omega)]
      cases hcls : narrowClasses lesson classes course surname with
      | nil =>
        rw [hcls] at h2
        simp [distinctTeachers] at h2
      | cons x rest =>
        rw [hcls] at h2
        simp only [acceptAbbrev]
        by_cases h3 : (x.2.teacher.toList.any (fun c => c.isAlpha)) = true
        · rw [if_pos h3]
          constructor
          · intro h
            exact ⟨h1, h2, x, rest, rfl, h3, (Option.some.injEq _ _ ▸ h).symm⟩
          · rintro ⟨_, _, y, rest2, hy, _, ht⟩
            cases hy
            rw [ht]
        · rw [if_neg h3]
          constructor
          · intro h; exact Option.noConfusion h
          · rintro ⟨_, _, y, rest2, hy, hy3, _⟩
            cases hy
            exact absurd hy3 h3

/-- C9: teacher inference emits a record for a message exactly under the
claim's conditions: the message is course-bearing with `other_info_value`
unresolved and a `_teachers` set whose surname has more than one token, and
after the narrowing chain (course/(group or subject) + form containment,
relaxed to subject-matching if empty, then the lesson's class number when
present, then first-letter match) exactly one distinct teacher abbreviation
remains, containing at least one alphabetic character; the emitted record
carries that abbreviation, the surname, and the lesson date as first/last
seen.  In every other case nothing is emitted for that message. -/
theorem inferTeacherForMessage_eq (lesson : Lesson) (classes : List (String × SchoolClass))
    (m : LessonInfoMessage) (course : String) (ts : Finset String)
    (hO : coreOtherInfoAttr m.parsed.core = some none)
    (hC : coreCourseAttr m.parsed.core = some course)
    (hT : m.parsed.core.teachersAttr = some ts) :
    inferTeacherForMessage lesson classes m =
      match firstOfSet ts with
      | none => none
      | some surname => inferFromCandidates lesson classes course surname := by
  unfold inferTeacherForMessage
  rw [hO, hC, hT]

/-- C9: teacher inference emits a record for a message exactly under the
claim's conditions: the message is course-bearing with `other_info_value`
unresolved and a `_teachers` set whose surname has more than one token, and
after the narrowing chain (course/(group or subject) + form containment,
relaxed to subject-matching if empty, then the lesson's class number when
present, then first-letter match) exactly one distinct teacher abbreviation
remains, containing at least one alphabetic character; the emitted record
carries that abbreviation, the surname, and the lesson date as first/last
seen.  In every other case nothing is emitted for that message. -/
theorem infer_teacher_emission_iff (lesson : Lesson) (classes : List (String × SchoolClass))
    (m : LessonInfoMessage) (t : Teacher) :
    inferTeacherForMessage lesson classes m = some t ↔
      ∃ course ts surname,
        coreOtherInfoAttr m.parsed.core = some none ∧
        coreCourseAttr m.parsed.core = some course ∧
        m.parsed.core.teachersAttr = some ts ∧
        firstOfSet ts = some surname ∧
        (splitWs surname).length ≠ 1 ∧
        (distinctTeachers (narrowClasses lesson classes course surname)).length = 1 ∧
        ∃ x rest, narrowClasses lesson classes course surname = x :: rest ∧
          (x.2.teacher.toList.any (fun c => c.isAlpha)) = true ∧
          t = ⟨x.2.teacher, some surname, lesson._lesson_date, lesson._lesson_date⟩ := by
  constructor
  · intro h
    unfold inferTeacherForMessage at h
    split at h
    · rename_i course ts hO hC hT
      split at h
      · exact Option.noConfusion h
      · rename_i surname hF
        obtain ⟨hlen, hdist, hx⟩ :=
          (inferFromCandidates_iff lesson classes course surname t).mp h
        exact ⟨course, ts, surname, hO, hC, hT, hF, hlen, hdist, hx⟩
    · exact Option.noConfusion h
  · rintro ⟨course, ts, surname, hO, hC, hT, hF, hlen, hdist, hx⟩
    rw [inferTeacherForMessage_eq lesson classes m course ts hO hC hT, hF]
    exact (inferFromCandidates_iff lesson classes course surname t).mpr ⟨hlen, hdist, hx⟩

/-! ### Serialization (C10) -/

/-- C10: `LessonInfoMessage.serialize`.  For `FailedToParse` (whose
`before`/`after` the parser always leaves empty) the `parsed` field is `null`
— no type tag or variant fields appear — while `text_segments` still holds
the typography-normalized `", "`-join of `original_messages` as a single
unlinked segment.  For every other variant, `parsed` is the variant's own
serialization: an object headed by its `type` tag, with dates as ISO-8601
strings and sets as sorted lists (spelled out for `MovedTo`). -/
theorem serialize_message_contract (env : RenderEnv) (ld : Date) (m : LessonInfoMessage) :
    (m.parsed.core = ParsedMsgCore.failedToParse → m.parsed.before = "" →
      m.parsed.after = "" →
      m.serialize ld env = .obj [("parsed", .null),
        ("text_segments", .arr [.obj [("text",
            .str (env.fix_typography (String.intercalate ", " m.parsed.original_messages))),
          ("link", .null)]])]) ∧
    (m.parsed.core ≠ ParsedMsgCore.failedToParse →
      (m.serialize ld env = .obj [("parsed", serializeCore m.parsed.core),
        ("text_segments",
          .arr ((m.parsed.to_text_segments ld env).map serializeSegment))]) ∧
      ∃ tag rest, serializeCore m.parsed.core = .obj (("type", JValue.str tag) :: rest)) ∧
    (∀ (f : MovedToFields) (d : Date), f.date = some d →
      serializeCore (.movedTo f) = .obj [("type", .str "MovedTo"),
        ("course", .str f.course),
        ("plan_type", .str (planTypeStr f.plan_type)),
        ("plan_value", .arr ((sortedStrings f.plan_value).map JValue.str)),
        ("other_info_value", jStrSetOpt f.other_info_value),
        ("_teachers", jStrSetOpt f._teachers),
        ("date", .str (pad4 d.year ++ "-" ++ pad2 d.month ++ "-" ++ pad2 d.day)),
        ("periods", .arr ((sortedNats f.periods).map JValue.num))]) := by
  refine ⟨?_, ?_, ?_⟩
  · intro h hb ha
    simp [LessonInfoMessage.serialize, h, ParsedInfoMsg.to_text_segments, hb, ha,
      ParsedInfoMsg.inner_text_segments, serializeSegment]
  · intro h
    refine ⟨by simp [LessonInfoMessage.serialize, h], ?_⟩
    cases hc : m.parsed.core
    all_goals first
      | exact absurd hc h
      | exact ⟨_, _, rfl⟩
  · intro f d hd
    simp [serializeCore, hd, jDateOpt, isoformat, jStrSet, jNatSet]

/-- C10 witness: the contract evaluated on a merged fallback message (with
`fix_typography` the identity of `sampleEnv`) and on the dated `MovedTo`
sample. -/
theorem serialize_message_witness :
    wFailedMsg.serialize ⟨2023, 6, 8⟩ sampleEnv = .obj [("parsed", .null),
        ("text_segments", .arr [.obj [("text",
            .str (sampleEnv.fix_typography
              (String.intercalate ", " wFailedMsg.parsed.original_messages))),
          ("link", .null)]])] ∧
      serializeCore (.movedTo sampleMovedToDated) = .obj [("type", .str "MovedTo"),
        ("course", .str sampleMovedToDated.course),
        ("plan_type", .str (planTypeStr sampleMovedToDated.plan_type)),
        ("plan_value", .arr ((sortedStrings sampleMovedToDated.plan_value).map JValue.str)),
        ("other_info_value", jStrSetOpt sampleMovedToDated.other_info_value),
        ("_teachers", jStrSetOpt sampleMovedToDated._teachers),
        ("date", .str (pad4 2023 ++ "-" ++ pad2 6 ++ "-" ++ pad2 5)),
        ("periods", .arr ((sortedNats sampleMovedToDated.periods).map JValue.num))] :=
  ⟨(serialize_message_contract sampleEnv ⟨2023, 6, 8⟩ wFailedMsg).1 rfl rfl rfl,
    (serialize_message_contract sampleEnv ⟨2023, 6, 8⟩ wFailedMsg).2.2 sampleMovedToDated
      ⟨2023, 6, 5⟩ rfl⟩

end VPlanFR
